import Mathlib

/-!
Verification development for the idaes-pse repository snapshot
(activity-coefficient property package, supercritical power-plant flowsheet,
and the pynumero smoke test).

The definitions below are a shallow embedding of the Python source:

* `ActivityCoeff` embeds `_ActivityCoeffStateBlock.initialize` and
  `release_state` from
  `src/idaes/property_models/activity_coeff_models/activity_coeff_prop_pack.py`
  as explicit state passing over a record of variable states
  (value and fixed flag) and constraint activation flags, together with an
  event trace.  The external nonlinear solver is a parameter: it may rewrite
  the values of unfixed variables and reports a termination condition; the
  source only ever reads the termination condition to choose a log message.
* `Powerplant` embeds `set_model_input` and the staged `initialize` of
  `src/idaes/generic_models/flowsheets/supercritical_powerplant_simple.py`
  as straight-line operation lists over a variable/constraint bookkeeping
  state.
* `Pynumero` embeds the objective and constraint expressions of
  `src/idaes/core/tests/test_have_pynumero.py` and their gradients
  (the gradients are backed by `HasDerivAt` lemmas over the reals).
-/

namespace Spec2Proof

namespace ActivityCoeff

/-- State of a single scalar Pyomo variable: its current value and whether it
is fixed.  `fix x` sets the value to `x` and the flag to `true`; `unfix`
clears the flag and keeps the value. -/
structure VarSt where
  val : ℚ
  fixed : Bool
deriving DecidableEq, Repr

/-- Configuration option `valid_phase` of the parameter block: `'Liq'`,
`'Vap'`, `('Liq', 'Vap')` or `('Vap', 'Liq')`. -/
inductive ValidPhase
  | Liq
  | Vap
  | LiqVap
  | VapLiq
deriving DecidableEq, Repr

/-- Configuration option `activity_coeff_model` of the parameter block. -/
inductive ActModel
  | Ideal
  | NRTL
  | Wilson
deriving DecidableEq, Repr

/-- Local names of the constraints of one state-block element that the
initialisation routine activates and deactivates. -/
inductive ConName
  | eq_total
  | eq_comp
  | eq_sum_mol_frac
  | eq_phase_equilibrium
  | eq_enth_mol_phase
  | eq_entr_mol_phase
  | eq_Gij_coeff
  | eq_A
  | eq_B
  | eq_activity_coeff
  | eq_mol_frac_out
deriving DecidableEq, Repr

/-- Names of the variables of one state-block element that the initialisation
routine fixes, unfixes or that the solver may write.  Components and the
interaction-matrix indices are natural numbers. -/
inductive SVar
  | flow_mol
  | mole_frac (j : ℕ)
  | pressure
  | temperature
  | activity_coeff_comp (j : ℕ)
  | Gij_coeff (i j : ℕ)
deriving DecidableEq, Repr

/-- One element `blk[k]` of the indexed state block: its per-element
configuration, the variable states the initializer touches, and for each
constraint name whether that constraint was built (`conPresent`) and whether
it is currently active (`conActive`). -/
structure Elem where
  defined_state : Bool
  has_phase_equilibrium : Bool
  flow_mol : VarSt
  mole_frac : ℕ → VarSt
  pressure : VarSt
  temperature : VarSt
  activity_coeff_comp : ℕ → VarSt
  Gij_coeff : ℕ → ℕ → VarSt
  conPresent : ConName → Bool
  conActive : ConName → Bool

/-- The indexed state block: the parameter-block configuration shared by the
elements, and the elements themselves, indexed by natural-number keys. -/
structure Blk where
  valid_phase : ValidPhase
  activity_coeff_model : ActModel
  elems : ℕ → Elem

/-- Events recorded while the initialisation routine runs: constraint
(de)activations, variable fixes and unfixes, the numbered solver calls of the
five solve steps, and the log messages (`logStep s ok` logs step `s` as
completed when `ok` and as failed otherwise; `logSkip` logs a skipped
step). -/
inductive Ev
  | deactivate (k : ℕ) (c : ConName)
  | activate (k : ℕ) (c : ConName)
  | fixv (k : ℕ) (v : SVar) (x : ℚ)
  | unfixv (k : ℕ) (v : SVar)
  | solve (step : ℕ)
  | logStep (step : ℕ) (ok : Bool)
  | logSkip (step : ℕ)
deriving DecidableEq, Repr

/-- Termination condition reported by the external nonlinear solver; the
source only compares it against `TerminationCondition.optimal`. -/
inductive TermCond
  | optimal
  | infeasible
  | maxIterations
  | other
deriving DecidableEq, Repr

/-- Boolean test the source performs on a termination condition. -/
def TermCond.isOptimal : TermCond → Bool
  | .optimal => true
  | _ => false

/-- The external solver, as a parameter of the embedding: `tc s` is the
termination condition reported by the `s`-th call to
`solve_indexed_blocks`, and `assign s k v` the value that call writes into
the unfixed variable `v` of element `k` (the solver never writes a fixed
variable and never changes fixed flags). -/
structure Solver where
  tc : ℕ → TermCond
  assign : ℕ → ℕ → SVar → ℚ

/-- Effect of a solver call on one variable: an unfixed variable receives the
solver's value, a fixed variable is untouched. -/
def updVar (f : SVar → ℚ) (v : SVar) (s : VarSt) : VarSt :=
  if s.fixed then s else ⟨f v, s.fixed⟩

/-- Effect of a solver call on one element: every unfixed variable may be
rewritten, fixed flags and constraint flags are untouched. -/
def solveElem (f : SVar → ℚ) (e : Elem) : Elem :=
  { e with
    flow_mol := updVar f .flow_mol e.flow_mol
    mole_frac := fun j => updVar f (.mole_frac j) (e.mole_frac j)
    pressure := updVar f .pressure e.pressure
    temperature := updVar f .temperature e.temperature
    activity_coeff_comp := fun j =>
      updVar f (.activity_coeff_comp j) (e.activity_coeff_comp j)
    Gij_coeff := fun i j => updVar f (.Gij_coeff i j) (e.Gij_coeff i j) }

/-- Effect of `solve_indexed_blocks(opt, [blk])` on the block: every element
of the block is handed to the solver. -/
def solveBlk (keys : List ℕ) (f : ℕ → SVar → ℚ) (b : Blk) : Blk :=
  { b with elems := fun k =>
      if k ∈ keys then solveElem (f k) (b.elems k) else b.elems k }

/-- Deactivation or activation of one constraint of one element.  The loops of
the source reach a constraint through `component_objects(Constraint)`, so only
constraints that were built are touched. -/
def Elem.setActive (e : Elem) (c : ConName) (bv : Bool) : Elem :=
  if e.conPresent c then
    { e with conActive := Function.update e.conActive c bv }
  else e

/-- Sequential (de)activation of a list of constraint names on one element,
in list order. -/
def setActiveMany (cs : List ConName) (bv : Bool) (e : Elem) : Elem :=
  cs.foldl (fun e c => e.setActive c bv) e

/-- Flag dictionary built by `initialize` (source lines 213-262): for each
key, whether each state variable was already fixed before initialisation. -/
structure Flags where
  Fflag : ℕ → Bool
  Xflag : ℕ → ℕ → Bool
  Pflag : ℕ → Bool
  Tflag : ℕ → Bool

/-- Flag recording of source lines 218-256: the `True` branch of each
`if ... .fixed is True` stores the pre-initialisation fixed flag.  The source
stores entries for the block's keys and components; the total functions here
agree with the dictionaries on that domain. -/
def mkFlags (b : Blk) : Flags where
  Fflag := fun k => (b.elems k).flow_mol.fixed
  Xflag := fun k j => ((b.elems k).mole_frac j).fixed
  Pflag := fun k => (b.elems k).pressure.fixed
  Tflag := fun k => (b.elems k).temperature.fixed

/-- Keyword arguments of `initialize` that the embedding tracks. -/
structure InitArgs where
  flow_mol : Option ℚ := none
  mole_frac : Option (ℕ → ℚ) := none
  pressure : Option ℚ := none
  temperature : Option ℚ := none
  hold_state : Bool := false
  state_vars_fixed : Bool := false
  outlvl : ℕ := 1

/-- Default value fixed into `mole_frac[j]` when the caller supplied none:
`1 / len(component_list)` (source line 234). -/
def defaultMoleFrac (comps : List ℕ) (a : InitArgs) (j : ℕ) : ℚ :=
  match a.mole_frac with
  | none => 1 / (comps.length : ℚ)
  | some f => f j

/-- Default value fixed into `flow_mol` (source line 224). -/
def defaultFlow (a : InitArgs) : ℚ := a.flow_mol.getD 1

/-- Default value fixed into `pressure` (source line 244). -/
def defaultPressure (a : InitArgs) : ℚ := a.pressure.getD 101325

/-- Default value fixed into `temperature` (source line 253). -/
def defaultTemperature (a : InitArgs) : ℚ := a.temperature.getD 300

/-- Source lines 207-209: deactivate `eq_mol_frac_out` on every element whose
`defined_state` is `False`. -/
def deactOutPhase (keys : List ℕ) (b : Blk) : Blk :=
  { b with elems := fun k =>
      if k ∈ keys ∧ (b.elems k).defined_state = false then
        (b.elems k).setActive .eq_mol_frac_out false
      else b.elems k }

/-- Trace of `deactOutPhase`. -/
def deactOutEvents (keys : List ℕ) (b : Blk) : List Ev :=
  keys.filterMap fun k =>
    if (b.elems k).defined_state = false then
      some (.deactivate k .eq_mol_frac_out)
    else none

/-- Source lines 218-256, effect on one element: each of the four state
variables that is not already fixed is fixed to the caller-supplied or default
value.  The component loop touches each component once, so it is rendered
pointwise. -/
def fixElemStateVars (comps : List ℕ) (a : InitArgs) (e : Elem) : Elem :=
  { e with
    flow_mol := if e.flow_mol.fixed then e.flow_mol else ⟨defaultFlow a, true⟩
    mole_frac := fun j =>
      if j ∈ comps ∧ (e.mole_frac j).fixed = false then
        ⟨defaultMoleFrac comps a j, true⟩
      else e.mole_frac j
    pressure := if e.pressure.fixed then e.pressure else ⟨defaultPressure a, true⟩
    temperature :=
      if e.temperature.fixed then e.temperature else ⟨defaultTemperature a, true⟩ }

/-- Source lines 218-256, effect on the block (the branch
`state_vars_fixed is False`). -/
def fixPhase (keys comps : List ℕ) (a : InitArgs) (b : Blk) : Blk :=
  { b with elems := fun k =>
      if k ∈ keys then fixElemStateVars comps a (b.elems k) else b.elems k }

/-- Trace of `fixPhase`: one fix event per state variable that was not already
fixed, in source order (flow, mole fractions, pressure, temperature). -/
def fixPhaseEvents (keys comps : List ℕ) (a : InitArgs) (b : Blk) : List Ev :=
  keys.flatMap fun k =>
    let e := b.elems k
    (if e.flow_mol.fixed then [] else [.fixv k .flow_mol (defaultFlow a)]) ++
    (comps.filterMap fun j =>
      if (e.mole_frac j).fixed then none
      else some (.fixv k (.mole_frac j) (defaultMoleFrac comps a j))) ++
    (if e.pressure.fixed then [] else [.fixv k .pressure (defaultPressure a)]) ++
    (if e.temperature.fixed then []
     else [.fixv k .temperature (defaultTemperature a)])

/-- Source lines 264-268: with `state_vars_fixed=True`, raise on the first key
whose degrees of freedom are not zero.  The `degrees_of_freedom` call is the
external oracle `dof`. -/
def checkDof (dof : ℕ → ℤ) (keys : List ℕ) : Except String Unit :=
  match keys.find? (fun k => dof k != 0) with
  | some _ =>
      .error "State vars fixed but degrees of freedom for state block is not zero during initialization."
  | none => .ok ()

/-- Constraint names deactivated before the first solve (source lines
288-299). -/
def deactList : List ConName :=
  [.eq_total, .eq_comp, .eq_sum_mol_frac, .eq_phase_equilibrium,
   .eq_enth_mol_phase, .eq_entr_mol_phase,
   .eq_Gij_coeff, .eq_A, .eq_B, .eq_activity_coeff]

/-- Source lines 287-299: deactivate `deactList` on every element. -/
def deactPhase (keys : List ℕ) (b : Blk) : Blk :=
  { b with elems := fun k =>
      if k ∈ keys then setActiveMany deactList false (b.elems k) else b.elems k }

/-- Trace of `deactPhase` (only constraints that were built are reached). -/
def deactPhaseEvents (keys : List ℕ) (b : Blk) : List Ev :=
  keys.flatMap fun k =>
    deactList.filterMap fun c =>
      if (b.elems k).conPresent c then some (.deactivate k c) else none

/-- Test of source lines 307-311 for a vapor-liquid `valid_phase` pair. -/
def ValidPhase.isPair : ValidPhase → Bool
  | .LiqVap => true
  | .VapLiq => true
  | _ => false

/-- Condition of source lines 307-311 deciding whether the first solve step
runs; `k` is the last key of the preceding loop (see the NOTE in the
source). -/
def twoPhaseCond (b : Blk) (k : ℕ) : Bool :=
  (b.elems k).has_phase_equilibrium || b.valid_phase.isPair

/-- Log events of one solve step (source pattern lines 314-321): with
`outlvl > 0`, step `s` is logged as completed when the termination condition
is optimal and as failed otherwise. -/
def logEv (outlvl s : ℕ) (t : TermCond) : List Ev :=
  if 0 < outlvl then [.logStep s t.isOptimal] else []

/-- Log event of the skipped first step (source lines 323-326). -/
def skipEv (outlvl s : ℕ) : List Ev :=
  if 0 < outlvl then [.logSkip s] else []

/-- Constraint names activated before the second solve (source lines
331-334). -/
def act2List : List ConName :=
  [.eq_total, .eq_comp, .eq_sum_mol_frac, .eq_phase_equilibrium]

/-- Source lines 329-339, effect on one element: reactivate the mass-balance
and phase-equilibrium constraints and, for a non-ideal activity model, fix
every `activity_coeff_comp` entry to 1. -/
def phase2Elem (comps : List ℕ) (model : ActModel) (e : Elem) : Elem :=
  let e' := setActiveMany act2List true e
  if model ≠ ActModel.Ideal then
    { e' with activity_coeff_comp := fun j =>
        if j ∈ comps then ⟨1, true⟩ else e'.activity_coeff_comp j }
  else e'

/-- Source lines 329-339, effect on the block. -/
def phase2 (keys comps : List ℕ) (b : Blk) : Blk :=
  { b with elems := fun k =>
      if k ∈ keys then phase2Elem comps b.activity_coeff_model (b.elems k)
      else b.elems k }

/-- Trace of `phase2`. -/
def phase2Events (keys comps : List ℕ) (b : Blk) : List Ev :=
  keys.flatMap fun k =>
    (act2List.filterMap fun c =>
      if (b.elems k).conPresent c then some (.activate k c) else none) ++
    (if b.activity_coeff_model ≠ ActModel.Ideal then
      comps.map fun j => Ev.fixv k (.activity_coeff_comp j) 1
    else [])

/-- Constraint names activated before the third solve (source lines
358-360). -/
def act3List : List ConName := [.eq_Gij_coeff, .eq_A, .eq_B]

/-- Source lines 354-361, effect on the block: for a non-ideal activity model,
activate the auxiliary interaction constraints. -/
def phase3 (keys : List ℕ) (b : Blk) : Blk :=
  { b with elems := fun k =>
      if k ∈ keys ∧ b.activity_coeff_model ≠ ActModel.Ideal then
        setActiveMany act3List true (b.elems k)
      else b.elems k }

/-- Trace of `phase3`. -/
def phase3Events (keys : List ℕ) (b : Blk) : List Ev :=
  if b.activity_coeff_model ≠ ActModel.Ideal then
    keys.flatMap fun k =>
      act3List.filterMap fun c =>
        if (b.elems k).conPresent c then some (.activate k c) else none
  else []

/-- Source lines 373-377, effect on one element: for a non-ideal activity
model, activate `eq_activity_coeff` and unfix every `activity_coeff_comp`
entry. -/
def phase4Elem (comps : List ℕ) (e : Elem) : Elem :=
  let e' := e.setActive .eq_activity_coeff true
  { e' with activity_coeff_comp := fun j =>
      if j ∈ comps then ⟨(e'.activity_coeff_comp j).val, false⟩
      else e'.activity_coeff_comp j }

/-- Source lines 373-377, effect on the block. -/
def phase4 (keys comps : List ℕ) (b : Blk) : Blk :=
  { b with elems := fun k =>
      if k ∈ keys ∧ b.activity_coeff_model ≠ ActModel.Ideal then
        phase4Elem comps (b.elems k)
      else b.elems k }

/-- Trace of `phase4`. -/
def phase4Events (keys comps : List ℕ) (b : Blk) : List Ev :=
  if b.activity_coeff_model ≠ ActModel.Ideal then
    keys.flatMap fun k =>
      [Ev.activate k .eq_activity_coeff] ++
      comps.map fun j => Ev.unfixv k (.activity_coeff_comp j)
  else []

/-- Constraint names activated before the fifth solve (source lines
391-392). -/
def act5List : List ConName := [.eq_enth_mol_phase, .eq_entr_mol_phase]

/-- Source lines 389-393, effect on the block: activate the enthalpy and
entropy constraints. -/
def phase5 (keys : List ℕ) (b : Blk) : Blk :=
  { b with elems := fun k =>
      if k ∈ keys then setActiveMany act5List true (b.elems k) else b.elems k }

/-- Trace of `phase5`. -/
def phase5Events (keys : List ℕ) (b : Blk) : List Ev :=
  keys.flatMap fun k =>
    act5List.filterMap fun c =>
      if (b.elems k).conPresent c then some (.activate k c) else none

/-- Source lines 405-407: reactivate `eq_mol_frac_out` on every element whose
`defined_state` is `False`. -/
def restorePhase (keys : List ℕ) (b : Blk) : Blk :=
  { b with elems := fun k =>
      if k ∈ keys ∧ (b.elems k).defined_state = false then
        (b.elems k).setActive .eq_mol_frac_out true
      else b.elems k }

/-- Trace of `restorePhase`. -/
def restoreEvents (keys : List ℕ) (b : Blk) : List Ev :=
  keys.filterMap fun k =>
    if (b.elems k).defined_state = false then
      some (.activate k .eq_mol_frac_out)
    else none

/-- Source lines 433-442, effect on one element of `release_state`: unfix
exactly the state variables whose recorded flag is `False`. -/
def releaseElem (comps : List ℕ) (fl : Flags) (k : ℕ) (e : Elem) : Elem :=
  { e with
    flow_mol := if fl.Fflag k then e.flow_mol else ⟨e.flow_mol.val, false⟩
    mole_frac := fun j =>
      if j ∈ comps ∧ fl.Xflag k j = false then ⟨(e.mole_frac j).val, false⟩
      else e.mole_frac j
    pressure := if fl.Pflag k then e.pressure else ⟨e.pressure.val, false⟩
    temperature :=
      if fl.Tflag k then e.temperature else ⟨e.temperature.val, false⟩ }

/-- Source lines 419-446, `release_state`: with `flags=None` it is a no-op,
otherwise each element's state variables recorded as not previously fixed are
unfixed. -/
def release_state (keys comps : List ℕ) (flags : Option Flags) (b : Blk) : Blk :=
  match flags with
  | none => b
  | some fl =>
      { b with elems := fun k =>
          if k ∈ keys then releaseElem comps fl k (b.elems k) else b.elems k }

/-- Trace of `release_state`. -/
def releaseEvents (keys comps : List ℕ) (flags : Option Flags) (_b : Blk) :
    List Ev :=
  match flags with
  | none => []
  | some fl =>
      keys.flatMap fun k =>
        (if fl.Fflag k then [] else [Ev.unfixv k .flow_mol]) ++
        (comps.filterMap fun j =>
          if fl.Xflag k j then none else some (Ev.unfixv k (.mole_frac j))) ++
        (if fl.Pflag k then [] else [Ev.unfixv k .pressure]) ++
        (if fl.Tflag k then [] else [Ev.unfixv k .temperature])

/-- Result of `initialize`: the mutated block, the value returned to the
caller (the flag dictionary when `hold_state` was requested, otherwise
`None`), and the event trace. -/
structure InitResult where
  blk : Blk
  ret : Option Flags
  trace : List Ev

/-- Solve steps 1 through 5 of the initialisation sequence (source lines
287-407): constraint deactivation for the first solve, the conditional
phase-equilibrium solve, and the four unconditional activate-and-solve
steps, ending with the restoration of `eq_mol_frac_out`.  `kLast` is the key
left bound by the preceding loops, used by the two-phase test of lines
307-311. -/
def solveSequence (keys comps : List ℕ) (a : InitArgs) (kLast : ℕ)
    (sv : Solver) (b2 : Blk) : Blk × List Ev :=
  let b3 := deactPhase keys b2
  let t3 := deactPhaseEvents keys b2
  let step1 :=
    if twoPhaseCond b3 kLast then
      (solveBlk keys (sv.assign 1) b3, [Ev.solve 1] ++ logEv a.outlvl 1 (sv.tc 1))
    else (b3, skipEv a.outlvl 1)
  let b4 := step1.1
  let t4 := step1.2
  let b5 := phase2 keys comps b4
  let t5 := phase2Events keys comps b4
  let b6 := solveBlk keys (sv.assign 2) b5
  let t6 := [Ev.solve 2] ++ logEv a.outlvl 2 (sv.tc 2)
  let b7a := phase3 keys b6
  let t7a := phase3Events keys b6
  let b7 := solveBlk keys (sv.assign 3) b7a
  let t7 := [Ev.solve 3] ++ logEv a.outlvl 3 (sv.tc 3)
  let b8a := phase4 keys comps b7
  let t8a := phase4Events keys comps b7
  let b8 := solveBlk keys (sv.assign 4) b8a
  let t8 := [Ev.solve 4] ++ logEv a.outlvl 4 (sv.tc 4)
  let b9a := phase5 keys b8
  let t9a := phase5Events keys b8
  let b9 := solveBlk keys (sv.assign 5) b9a
  let t9 := [Ev.solve 5] ++ logEv a.outlvl 5 (sv.tc 5)
  let b10 := restorePhase keys b9
  let t10 := restoreEvents keys b9
  (b10, t3 ++ t4 ++ t5 ++ t6 ++ t7a ++ t7 ++ t8a ++ t8 ++ t9a ++ t9 ++ t10)

/-- Embedding of `_ActivityCoeffStateBlock.initialize` (source lines
172-417).  The external `degrees_of_freedom` function is the oracle `dof`;
the external solver is `sv`.  A raised Python exception is an `Except.error`
(an empty block raises a `NameError` at line 307 because the loop variable
`k` is unbound). -/
def initialise (keys comps : List ℕ) (a : InitArgs) (dof : ℕ → ℤ)
    (sv : Solver) (b0 : Blk) : Except String InitResult :=
  match keys.getLast? with
  | none => .error "NameError: name k is not defined"
  | some kLast =>
    let b1 := deactOutPhase keys b0
    let t1 := deactOutEvents keys b0
    if a.state_vars_fixed then
      match checkDof dof keys with
      | .error msg => .error msg
      | .ok _ =>
          let r := solveSequence keys comps a kLast sv b1
          .ok ⟨r.1, none, t1 ++ r.2⟩
    else
      let flags := mkFlags b1
      let b2 := fixPhase keys comps a b1
      let t2 := fixPhaseEvents keys comps a b1
      let r := solveSequence keys comps a kLast sv b2
      if a.hold_state then
        .ok ⟨r.1, some flags, t1 ++ t2 ++ r.2⟩
      else
        .ok ⟨release_state keys comps (some flags) r.1, none,
             t1 ++ t2 ++ r.2 ++ releaseEvents keys comps (some flags) r.1⟩


/-- Index set of the constraint `eq_Gij_coeff` as the rules of source lines
658-669 and 738-750 generate it: a constraint for every ordered component
pair with distinct entries; the diagonal returns `Constraint.Skip`, so no
constraint is generated for it. -/
def eq_Gij_coeff_index (comps : List ℕ) : List (ℕ × ℕ) :=
  comps.flatMap fun i =>
    comps.filterMap fun j => if i = j then none else some (i, j)

/-- Constraint names built by `_make_NRTL_eq` and `_make_Wilson_eq`. -/
def actModelCons : List ConName := [.eq_Gij_coeff, .eq_A, .eq_B, .eq_activity_coeff]

/-- Embedding of `_make_NRTL_eq` (source lines 623-704) restricted to the
state the claims track: the `Gij_coeff` matrix is created with initial value
1.0 and its diagonal is fixed to 1 by the constraint rule (`fix(1)` on the
`i = j` branch, line 664); `activity_coeff_comp` is created unfixed with
initial value 1.0; the four NRTL constraints are built and active. -/
def make_NRTL_eq (comps : List ℕ) (e : Elem) : Elem :=
  { e with
    Gij_coeff := fun i j =>
      if i ∈ comps ∧ j ∈ comps then
        (if i = j then ⟨1, true⟩ else ⟨1, false⟩)
      else e.Gij_coeff i j
    activity_coeff_comp := fun j =>
      if j ∈ comps then ⟨1, false⟩ else e.activity_coeff_comp j
    conPresent := fun c => if c ∈ actModelCons then true else e.conPresent c
    conActive := fun c => if c ∈ actModelCons then true else e.conActive c }

/-- Embedding of `_make_Wilson_eq` (source lines 706-776) restricted to the
state the claims track; the `Gij_coeff` treatment is the same as for NRTL:
initial value 1.0 everywhere and the diagonal fixed to 1 by the rule's
`i = j` branch (line 745). -/
def make_Wilson_eq (comps : List ℕ) (e : Elem) : Elem :=
  { e with
    Gij_coeff := fun i j =>
      if i ∈ comps ∧ j ∈ comps then
        (if i = j then ⟨1, true⟩ else ⟨1, false⟩)
      else e.Gij_coeff i j
    activity_coeff_comp := fun j =>
      if j ∈ comps then ⟨1, false⟩ else e.activity_coeff_comp j
    conPresent := fun c => if c ∈ actModelCons then true else e.conPresent c
    conActive := fun c => if c ∈ actModelCons then true else e.conActive c }

/-! Preservation lemmas: which parts of an element each phase leaves
untouched. -/

section Lemmas

variable {e : Elem} {c : ConName} {bv : Bool} {cs : List ConName}
variable {f : SVar → ℚ} {comps keys : List ℕ} {a : InitArgs} {b : Blk} {k : ℕ}

/-- Projection of the state the claims compare across phases: the fixed flags
of the four state variables. -/
def svFix (e : Elem) : Bool × (ℕ → Bool) × Bool × Bool :=
  (e.flow_mol.fixed, fun j => (e.mole_frac j).fixed,
   e.pressure.fixed, e.temperature.fixed)

/-- Projection of the activity-coefficient and interaction variables. -/
def acGij (e : Elem) : (ℕ → VarSt) × (ℕ → ℕ → VarSt) :=
  (e.activity_coeff_comp, e.Gij_coeff)

@[simp] lemma setActive_flow_mol : (e.setActive c bv).flow_mol = e.flow_mol := by
  unfold Elem.setActive; split <;> rfl

@[simp] lemma setActive_mole_frac : (e.setActive c bv).mole_frac = e.mole_frac := by
  unfold Elem.setActive; split <;> rfl

@[simp] lemma setActive_pressure : (e.setActive c bv).pressure = e.pressure := by
  unfold Elem.setActive; split <;> rfl

@[simp] lemma setActive_temperature :
    (e.setActive c bv).temperature = e.temperature := by
  unfold Elem.setActive; split <;> rfl

@[simp] lemma setActive_activity_coeff_comp :
    (e.setActive c bv).activity_coeff_comp = e.activity_coeff_comp := by
  unfold Elem.setActive; split <;> rfl

@[simp] lemma setActive_Gij_coeff :
    (e.setActive c bv).Gij_coeff = e.Gij_coeff := by
  unfold Elem.setActive; split <;> rfl

@[simp] lemma setActive_conPresent :
    (e.setActive c bv).conPresent = e.conPresent := by
  unfold Elem.setActive; split <;> rfl

@[simp] lemma setActive_defined_state :
    (e.setActive c bv).defined_state = e.defined_state := by
  unfold Elem.setActive; split <;> rfl

@[simp] lemma setActive_has_phase_equilibrium :
    (e.setActive c bv).has_phase_equilibrium = e.has_phase_equilibrium := by
  unfold Elem.setActive; split <;> rfl

@[simp] lemma svFix_setActive : svFix (e.setActive c bv) = svFix e := by
  simp [svFix]

@[simp] lemma acGij_setActive : acGij (e.setActive c bv) = acGij e := by
  simp [acGij]

lemma setActiveMany_cons :
    setActiveMany (c :: cs) bv e = setActiveMany cs bv (e.setActive c bv) := rfl

@[simp] lemma setActiveMany_flow_mol :
    (setActiveMany cs bv e).flow_mol = e.flow_mol := by
  induction cs generalizing e with
  | nil => rfl
  | cons c cs ih => rw [setActiveMany_cons, ih, setActive_flow_mol]

@[simp] lemma setActiveMany_mole_frac :
    (setActiveMany cs bv e).mole_frac = e.mole_frac := by
  induction cs generalizing e with
  | nil => rfl
  | cons c cs ih => rw [setActiveMany_cons, ih, setActive_mole_frac]

@[simp] lemma setActiveMany_pressure :
    (setActiveMany cs bv e).pressure = e.pressure := by
  induction cs generalizing e with
  | nil => rfl
  | cons c cs ih => rw [setActiveMany_cons, ih, setActive_pressure]

@[simp] lemma setActiveMany_temperature :
    (setActiveMany cs bv e).temperature = e.temperature := by
  induction cs generalizing e with
  | nil => rfl
  | cons c cs ih => rw [setActiveMany_cons, ih, setActive_temperature]

@[simp] lemma setActiveMany_activity_coeff_comp :
    (setActiveMany cs bv e).activity_coeff_comp = e.activity_coeff_comp := by
  induction cs generalizing e with
  | nil => rfl
  | cons c cs ih => rw [setActiveMany_cons, ih, setActive_activity_coeff_comp]

@[simp] lemma setActiveMany_Gij_coeff :
    (setActiveMany cs bv e).Gij_coeff = e.Gij_coeff := by
  induction cs generalizing e with
  | nil => rfl
  | cons c cs ih => rw [setActiveMany_cons, ih, setActive_Gij_coeff]

@[simp] lemma setActiveMany_conPresent :
    (setActiveMany cs bv e).conPresent = e.conPresent := by
  induction cs generalizing e with
  | nil => rfl
  | cons c cs ih => rw [setActiveMany_cons, ih, setActive_conPresent]

@[simp] lemma setActiveMany_defined_state :
    (setActiveMany cs bv e).defined_state = e.defined_state := by
  induction cs generalizing e with
  | nil => rfl
  | cons c cs ih => rw [setActiveMany_cons, ih, setActive_defined_state]

@[simp] lemma setActiveMany_has_phase_equilibrium :
    (setActiveMany cs bv e).has_phase_equilibrium = e.has_phase_equilibrium := by
  induction cs generalizing e with
  | nil => rfl
  | cons c cs ih => rw [setActiveMany_cons, ih, setActive_has_phase_equilibrium]

@[simp] lemma svFix_setActiveMany : svFix (setActiveMany cs bv e) = svFix e := by
  simp [svFix]

@[simp] lemma acGij_setActiveMany : acGij (setActiveMany cs bv e) = acGij e := by
  simp [acGij]

@[simp] lemma updVar_fixed {v : SVar} {s : VarSt} :
    (updVar f v s).fixed = s.fixed := by
  unfold updVar; split <;> rfl

lemma updVar_of_fixed {v : SVar} {s : VarSt} (h : s.fixed = true) :
    updVar f v s = s := by
  unfold updVar; simp [h]

@[simp] lemma svFix_solveElem : svFix (solveElem f e) = svFix e := by
  simp [svFix, solveElem]

@[simp] lemma solveElem_conPresent : (solveElem f e).conPresent = e.conPresent := rfl

@[simp] lemma solveElem_conActive : (solveElem f e).conActive = e.conActive := rfl

@[simp] lemma solveElem_defined_state :
    (solveElem f e).defined_state = e.defined_state := rfl

@[simp] lemma solveElem_has_phase_equilibrium :
    (solveElem f e).has_phase_equilibrium = e.has_phase_equilibrium := rfl

lemma solveElem_Gij_of_fixed {i j : ℕ} (h : (e.Gij_coeff i j).fixed = true) :
    (solveElem f e).Gij_coeff i j = e.Gij_coeff i j := by
  simp [solveElem, updVar_of_fixed h]

@[simp] lemma svFix_phase2Elem {model : ActModel} :
    svFix (phase2Elem comps model e) = svFix e := by
  unfold phase2Elem; split <;> simp [svFix]

@[simp] lemma phase2Elem_flow_mol {model : ActModel} :
    (phase2Elem comps model e).flow_mol = e.flow_mol := by
  unfold phase2Elem; split <;> simp

@[simp] lemma phase2Elem_mole_frac {model : ActModel} :
    (phase2Elem comps model e).mole_frac = e.mole_frac := by
  unfold phase2Elem; split <;> simp

@[simp] lemma phase2Elem_pressure {model : ActModel} :
    (phase2Elem comps model e).pressure = e.pressure := by
  unfold phase2Elem; split <;> simp

@[simp] lemma phase2Elem_temperature {model : ActModel} :
    (phase2Elem comps model e).temperature = e.temperature := by
  unfold phase2Elem; split <;> simp

@[simp] lemma phase2Elem_conPresent {model : ActModel} :
    (phase2Elem comps model e).conPresent = e.conPresent := by
  unfold phase2Elem; split <;> simp

@[simp] lemma phase2Elem_defined_state {model : ActModel} :
    (phase2Elem comps model e).defined_state = e.defined_state := by
  unfold phase2Elem; split <;> simp

@[simp] lemma phase2Elem_has_phase_equilibrium {model : ActModel} :
    (phase2Elem comps model e).has_phase_equilibrium = e.has_phase_equilibrium := by
  unfold phase2Elem; split <;> simp

@[simp] lemma phase2Elem_Gij_coeff {model : ActModel} :
    (phase2Elem comps model e).Gij_coeff = e.Gij_coeff := by
  unfold phase2Elem; split <;> simp [acGij]

@[simp] lemma svFix_phase4Elem : svFix (phase4Elem comps e) = svFix e := by
  simp [svFix, phase4Elem]

@[simp] lemma phase4Elem_conPresent :
    (phase4Elem comps e).conPresent = e.conPresent := by
  simp [phase4Elem]

@[simp] lemma phase4Elem_defined_state :
    (phase4Elem comps e).defined_state = e.defined_state := by
  simp [phase4Elem]

@[simp] lemma phase4Elem_has_phase_equilibrium :
    (phase4Elem comps e).has_phase_equilibrium = e.has_phase_equilibrium := by
  simp [phase4Elem]

@[simp] lemma phase4Elem_Gij_coeff :
    (phase4Elem comps e).Gij_coeff = e.Gij_coeff := by
  simp [phase4Elem]

@[simp] lemma fixElemStateVars_activity_coeff_comp :
    (fixElemStateVars comps a e).activity_coeff_comp = e.activity_coeff_comp := rfl

@[simp] lemma fixElemStateVars_Gij_coeff :
    (fixElemStateVars comps a e).Gij_coeff = e.Gij_coeff := rfl

@[simp] lemma fixElemStateVars_conPresent :
    (fixElemStateVars comps a e).conPresent = e.conPresent := rfl

@[simp] lemma fixElemStateVars_conActive :
    (fixElemStateVars comps a e).conActive = e.conActive := rfl

@[simp] lemma fixElemStateVars_defined_state :
    (fixElemStateVars comps a e).defined_state = e.defined_state := rfl

@[simp] lemma fixElemStateVars_has_phase_equilibrium :
    (fixElemStateVars comps a e).has_phase_equilibrium = e.has_phase_equilibrium := rfl

@[simp] lemma releaseElem_activity_coeff_comp {fl : Flags} :
    (releaseElem comps fl k e).activity_coeff_comp = e.activity_coeff_comp := rfl

@[simp] lemma releaseElem_Gij_coeff {fl : Flags} :
    (releaseElem comps fl k e).Gij_coeff = e.Gij_coeff := rfl

@[simp] lemma releaseElem_conActive {fl : Flags} :
    (releaseElem comps fl k e).conActive = e.conActive := rfl

@[simp] lemma releaseElem_conPresent {fl : Flags} :
    (releaseElem comps fl k e).conPresent = e.conPresent := rfl

end Lemmas


section BlkLemmas

variable {keys comps : List ℕ} {a : InitArgs} {b b0 : Blk} {k kLast : ℕ}
variable {sv : Solver} {dof : ℕ → ℤ} {f : ℕ → SVar → ℚ} {fl : Flags}

@[simp] lemma svFix_deactOutPhase :
    svFix ((deactOutPhase keys b).elems k) = svFix (b.elems k) := by
  unfold deactOutPhase; dsimp only; split <;> simp

@[simp] lemma svFix_deactPhase :
    svFix ((deactPhase keys b).elems k) = svFix (b.elems k) := by
  unfold deactPhase; dsimp only; split <;> simp

@[simp] lemma svFix_solveBlk :
    svFix ((solveBlk keys f b).elems k) = svFix (b.elems k) := by
  unfold solveBlk; dsimp only; split <;> simp

@[simp] lemma svFix_phase2 :
    svFix ((phase2 keys comps b).elems k) = svFix (b.elems k) := by
  unfold phase2; dsimp only; split <;> simp

@[simp] lemma svFix_phase3 :
    svFix ((phase3 keys b).elems k) = svFix (b.elems k) := by
  unfold phase3; dsimp only; split <;> simp

@[simp] lemma svFix_phase4 :
    svFix ((phase4 keys comps b).elems k) = svFix (b.elems k) := by
  unfold phase4; dsimp only; split <;> simp

@[simp] lemma svFix_phase5 :
    svFix ((phase5 keys b).elems k) = svFix (b.elems k) := by
  unfold phase5; dsimp only; split <;> simp

@[simp] lemma svFix_restorePhase :
    svFix ((restorePhase keys b).elems k) = svFix (b.elems k) := by
  unfold restorePhase; dsimp only; split <;> simp

/-- The five solve steps leave the fixed flags of the four state variables of
every element unchanged. -/
lemma svFix_solveSequence :
    svFix (((solveSequence keys comps a kLast sv b).1).elems k)
      = svFix (b.elems k) := by
  unfold solveSequence
  dsimp only
  split <;> simp

lemma fixPhase_elems_of_mem (hk : k ∈ keys) :
    (fixPhase keys comps a b).elems k = fixElemStateVars comps a (b.elems k) := by
  simp [fixPhase, hk]

lemma release_state_elems_of_mem (hk : k ∈ keys) :
    (release_state keys comps (some fl) b).elems k
      = releaseElem comps fl k (b.elems k) := by
  simp [release_state, hk]

/-- Fixing phase, flow variable: afterwards the flag is set. -/
lemma fixElemStateVars_flow_fixed {e : Elem} :
    (fixElemStateVars comps a e).flow_mol.fixed = true := by
  unfold fixElemStateVars; dsimp only; split <;> simp_all

lemma fixElemStateVars_pressure_fixed {e : Elem} :
    (fixElemStateVars comps a e).pressure.fixed = true := by
  unfold fixElemStateVars; dsimp only; split <;> simp_all

lemma fixElemStateVars_temperature_fixed {e : Elem} :
    (fixElemStateVars comps a e).temperature.fixed = true := by
  unfold fixElemStateVars; dsimp only; split <;> simp_all

lemma fixElemStateVars_mole_frac_fixed {e : Elem} {j : ℕ} :
    ((fixElemStateVars comps a e).mole_frac j).fixed
      = (if j ∈ comps then true else (e.mole_frac j).fixed) := by
  unfold fixElemStateVars
  dsimp only
  by_cases hj : j ∈ comps <;> by_cases hfix : (e.mole_frac j).fixed <;>
    simp [hj, hfix]

lemma svFix_eq_flow {e e' : Elem} (h : svFix e = svFix e') :
    e.flow_mol.fixed = e'.flow_mol.fixed := congrArg (fun t => t.1) h

lemma svFix_eq_mole {e e' : Elem} (h : svFix e = svFix e') (j : ℕ) :
    (e.mole_frac j).fixed = (e'.mole_frac j).fixed :=
  congrArg (fun t => t.2.1 j) h

lemma svFix_eq_pressure {e e' : Elem} (h : svFix e = svFix e') :
    e.pressure.fixed = e'.pressure.fixed := congrArg (fun t => t.2.2.1) h

lemma svFix_eq_temperature {e e' : Elem} (h : svFix e = svFix e') :
    e.temperature.fixed = e'.temperature.fixed := congrArg (fun t => t.2.2.2) h

/-- Unfolding of `initialise` when the caller holds the state: the solve
sequence runs on the fixed block, the pre-initialisation flags are returned,
and no release is performed. -/
lemma initialise_hold_eq (hlast : keys.getLast? = some kLast)
    (hh : a.hold_state = true) (hs : a.state_vars_fixed = false) :
    initialise keys comps a dof sv b0 =
      .ok ⟨(solveSequence keys comps a kLast sv
              (fixPhase keys comps a (deactOutPhase keys b0))).1,
           some (mkFlags (deactOutPhase keys b0)),
           deactOutEvents keys b0
             ++ fixPhaseEvents keys comps a (deactOutPhase keys b0)
             ++ (solveSequence keys comps a kLast sv
                  (fixPhase keys comps a (deactOutPhase keys b0))).2⟩ := by
  unfold initialise
  rw [hlast]
  simp [hs, hh]

end BlkLemmas

/-- C1: for every indexed state block and every initial fixed status of the
state variables, `initialize(hold_state=True, state_vars_fixed=False)`
followed by `release_state` with the returned flag dictionary restores every
state variable's fixed status to its pre-initialisation value: the flags make
`release_state` unfix exactly the variables the initialiser itself fixed, and
`release_state` touches nothing else (activity coefficients, interaction
coefficients and constraint activity are left as `initialize` ended). -/
theorem C1_hold_release_roundtrip
    (keys comps : List ℕ) (a : InitArgs) (dof : ℕ → ℤ) (sv : Solver)
    (b0 : Blk) (r : InitResult)
    (hh : a.hold_state = true) (hs : a.state_vars_fixed = false)
    (hr : initialise keys comps a dof sv b0 = .ok r)
    (k : ℕ) (hk : k ∈ keys) :
    (((release_state keys comps r.ret r.blk).elems k).flow_mol.fixed
        = (b0.elems k).flow_mol.fixed)
    ∧ (∀ j, (((release_state keys comps r.ret r.blk).elems k).mole_frac j).fixed
        = ((b0.elems k).mole_frac j).fixed)
    ∧ (((release_state keys comps r.ret r.blk).elems k).pressure.fixed
        = (b0.elems k).pressure.fixed)
    ∧ (((release_state keys comps r.ret r.blk).elems k).temperature.fixed
        = (b0.elems k).temperature.fixed)
    ∧ ((release_state keys comps r.ret r.blk).elems k).activity_coeff_comp
        = (r.blk.elems k).activity_coeff_comp
    ∧ ((release_state keys comps r.ret r.blk).elems k).Gij_coeff
        = (r.blk.elems k).Gij_coeff
    ∧ ((release_state keys comps r.ret r.blk).elems k).conActive
        = (r.blk.elems k).conActive := by
  cases hlast : keys.getLast? with
  | none =>
      rw [initialise, hlast] at hr
      cases hr
  | some kLast =>
      rw [initialise_hold_eq hlast hh hs] at hr
      injection hr with hr
      subst hr
      dsimp only
      rw [release_state_elems_of_mem hk]
      have h1 : svFix ((deactOutPhase keys b0).elems k) = svFix (b0.elems k) :=
        svFix_deactOutPhase
      have hseq :
          svFix (((solveSequence keys comps a kLast sv
              (fixPhase keys comps a (deactOutPhase keys b0))).1).elems k)
            = svFix ((fixPhase keys comps a (deactOutPhase keys b0)).elems k) :=
        svFix_solveSequence
      have hFeq : (mkFlags (deactOutPhase keys b0)).Fflag k
          = (b0.elems k).flow_mol.fixed := svFix_eq_flow h1
      have hXeq : ∀ j, (mkFlags (deactOutPhase keys b0)).Xflag k j
          = ((b0.elems k).mole_frac j).fixed := fun j => svFix_eq_mole h1 j
      have hPeq : (mkFlags (deactOutPhase keys b0)).Pflag k
          = (b0.elems k).pressure.fixed := svFix_eq_pressure h1
      have hTeq : (mkFlags (deactOutPhase keys b0)).Tflag k
          = (b0.elems k).temperature.fixed := svFix_eq_temperature h1
      have hbFflow :
          (((solveSequence keys comps a kLast sv
              (fixPhase keys comps a (deactOutPhase keys b0))).1).elems
            k).flow_mol.fixed = true := by
        rw [svFix_eq_flow hseq, fixPhase_elems_of_mem hk]
        exact fixElemStateVars_flow_fixed
      have hbFpress :
          (((solveSequence keys comps a kLast sv
              (fixPhase keys comps a (deactOutPhase keys b0))).1).elems
            k).pressure.fixed = true := by
        rw [svFix_eq_pressure hseq, fixPhase_elems_of_mem hk]
        exact fixElemStateVars_pressure_fixed
      have hbFtemp :
          (((solveSequence keys comps a kLast sv
              (fixPhase keys comps a (deactOutPhase keys b0))).1).elems
            k).temperature.fixed = true := by
        rw [svFix_eq_temperature hseq, fixPhase_elems_of_mem hk]
        exact fixElemStateVars_temperature_fixed
      have hbFmole : ∀ j,
          ((((solveSequence keys comps a kLast sv
              (fixPhase keys comps a (deactOutPhase keys b0))).1).elems
            k).mole_frac j).fixed
            = if j ∈ comps then true else ((b0.elems k).mole_frac j).fixed := by
        intro j
        rw [svFix_eq_mole hseq j, fixPhase_elems_of_mem hk,
          fixElemStateVars_mole_frac_fixed]
        by_cases hj : j ∈ comps <;> simp [hj, svFix_eq_mole h1 j]
      refine ⟨?_, ?_, ?_, ?_, rfl, rfl, rfl⟩
      · unfold releaseElem
        dsimp only
        rw [hFeq]
        by_cases hF : (b0.elems k).flow_mol.fixed = true
        · simp [hF, hbFflow]
        · simp only [Bool.not_eq_true] at hF
          simp [hF]
      · intro j
        unfold releaseElem
        dsimp only
        rw [hXeq j]
        by_cases hj : j ∈ comps
        · by_cases hX : ((b0.elems k).mole_frac j).fixed = true
          · simp [hj, hX, hbFmole j]
          · simp only [Bool.not_eq_true] at hX
            simp [hj, hX]
        · simp [hj, hbFmole j]
      · unfold releaseElem
        dsimp only
        rw [hPeq]
        by_cases hP : (b0.elems k).pressure.fixed = true
        · simp [hP, hbFpress]
        · simp only [Bool.not_eq_true] at hP
          simp [hP]
      · unfold releaseElem
        dsimp only
        rw [hTeq]
        by_cases hT : (b0.elems k).temperature.fixed = true
        · simp [hT, hbFtemp]
        · simp only [Bool.not_eq_true] at hT
          simp [hT]

/-- Helper for the witnesses: whether an `initialise` run succeeded. -/
def isOkB : Except String InitResult → Bool
  | .ok _ => true
  | .error _ => false

/-- Concrete element for the C1 witness: flow fixed, first mole fraction
fixed, pressure and temperature free, two components present. -/
def C1wElem : Elem where
  defined_state := false
  has_phase_equilibrium := true
  flow_mol := ⟨5, true⟩
  mole_frac := fun j => if j = 0 then ⟨1/2, true⟩ else ⟨1/2, false⟩
  pressure := ⟨101325, false⟩
  temperature := ⟨350, false⟩
  activity_coeff_comp := fun _ => ⟨1, false⟩
  Gij_coeff := fun i j => if i = j then ⟨1, true⟩ else ⟨1, false⟩
  conPresent := fun _ => true
  conActive := fun _ => true

/-- Concrete block for the C1 witness: one key, NRTL, two-phase. -/
def C1wBlk : Blk where
  valid_phase := .LiqVap
  activity_coeff_model := .NRTL
  elems := fun _ => C1wElem

/-- Concrete solver oracle for the witnesses. -/
def wSolver : Solver where
  tc := fun _ => .optimal
  assign := fun _ _ _ => 7

/-- Witness for C1: the round trip at a concrete one-element NRTL block with a
mixed pattern of pre-fixed state variables. -/
theorem C1_hold_release_roundtrip_witness :
    ∃ r, initialise [0] [0, 1] { hold_state := true } (fun _ => 0) wSolver C1wBlk
        = .ok r ∧
      ((((release_state [0] [0, 1] r.ret r.blk).elems 0).flow_mol.fixed
          = (C1wBlk.elems 0).flow_mol.fixed)
        ∧ ∀ j, (((release_state [0] [0, 1] r.ret r.blk).elems 0).mole_frac j).fixed
            = ((C1wBlk.elems 0).mole_frac j).fixed) := by
  cases hr : initialise [0] [0, 1] { hold_state := true } (fun _ => 0) wSolver
      C1wBlk with
  | error e =>
      have hok : isOkB (initialise [0] [0, 1] { hold_state := true }
          (fun _ => 0) wSolver C1wBlk) = true := rfl
      rw [hr] at hok
      exact absurd hok (by simp [isOkB])
  | ok r =>
      refine ⟨r, rfl, ?_, ?_⟩
      · exact (C1_hold_release_roundtrip [0] [0, 1] { hold_state := true }
          (fun _ => 0) wSolver C1wBlk r rfl rfl hr 0 (by decide)).1
      · exact (C1_hold_release_roundtrip [0] [0, 1] { hold_state := true }
          (fun _ => 0) wSolver C1wBlk r rfl rfl hr 0 (by decide)).2.1


section TraceLemmas

variable {keys comps : List ℕ} {a : InitArgs} {b b0 : Blk} {k kLast n : ℕ}
variable {sv : Solver} {dof : ℕ → ℤ} {fl : Flags} {o st : ℕ} {t : TermCond}

@[simp] lemma solve_not_mem_deactOutEvents :
    Ev.solve n ∉ deactOutEvents keys b := by
  intro h
  simp only [deactOutEvents, List.mem_filterMap] at h
  obtain ⟨k, _, h⟩ := h
  split at h <;> simp_all

@[simp] lemma solve_not_mem_fixPhaseEvents :
    Ev.solve n ∉ fixPhaseEvents keys comps a b := by
  intro h
  simp only [fixPhaseEvents, List.mem_flatMap, List.mem_append,
    List.mem_filterMap] at h
  obtain ⟨k, _, h⟩ := h
  rcases h with ((h | ⟨j, _, h⟩) | h) | h <;>
    · split at h <;> simp_all

@[simp] lemma solve_not_mem_deactPhaseEvents :
    Ev.solve n ∉ deactPhaseEvents keys b := by
  intro h
  simp only [deactPhaseEvents, List.mem_flatMap, List.mem_filterMap] at h
  obtain ⟨k, _, c, _, h⟩ := h
  split at h <;> simp_all

@[simp] lemma solve_not_mem_phase2Events :
    Ev.solve n ∉ phase2Events keys comps b := by
  intro h
  simp only [phase2Events, List.mem_flatMap, List.mem_append,
    List.mem_filterMap, List.mem_map] at h
  obtain ⟨k, _, h⟩ := h
  rcases h with ⟨c, _, h⟩ | h
  · split at h <;> simp_all
  · split at h <;> simp_all

@[simp] lemma solve_not_mem_phase3Events :
    Ev.solve n ∉ phase3Events keys b := by
  intro h
  unfold phase3Events at h
  split at h
  · simp only [List.mem_flatMap, List.mem_filterMap] at h
    obtain ⟨k, _, c, _, h⟩ := h
    split at h <;> simp_all
  · simp at h

@[simp] lemma solve_not_mem_phase4Events :
    Ev.solve n ∉ phase4Events keys comps b := by
  intro h
  unfold phase4Events at h
  split at h
  · simp only [List.mem_flatMap, List.mem_append, List.mem_map,
      List.mem_cons, List.mem_singleton] at h
    obtain ⟨k, _, h⟩ := h
    rcases h with h | ⟨j, _, h⟩ <;> simp_all
  · simp at h

@[simp] lemma solve_not_mem_phase5Events :
    Ev.solve n ∉ phase5Events keys b := by
  intro h
  simp only [phase5Events, List.mem_flatMap, List.mem_filterMap] at h
  obtain ⟨k, _, c, _, h⟩ := h
  split at h <;> simp_all

@[simp] lemma solve_not_mem_restoreEvents :
    Ev.solve n ∉ restoreEvents keys b := by
  intro h
  simp only [restoreEvents, List.mem_filterMap] at h
  obtain ⟨k, _, h⟩ := h
  split at h <;> simp_all

@[simp] lemma solve_not_mem_releaseEvents {flags : Option Flags} :
    Ev.solve n ∉ releaseEvents keys comps flags b := by
  intro h
  unfold releaseEvents at h
  split at h
  · simp at h
  · simp only [List.mem_flatMap, List.mem_append, List.mem_filterMap] at h
    obtain ⟨k, _, h⟩ := h
    rcases h with ((h | ⟨j, _, h⟩) | h) | h <;>
      · split at h <;> simp_all

@[simp] lemma solve_not_mem_logEv : Ev.solve n ∉ logEv o st t := by
  intro h
  unfold logEv at h
  split at h <;> simp_all

@[simp] lemma solve_not_mem_skipEv : Ev.solve n ∉ skipEv o st := by
  intro h
  unfold skipEv at h
  split at h <;> simp_all

@[simp] lemma has_pe_deactOutPhase :
    ((deactOutPhase keys b).elems k).has_phase_equilibrium
      = (b.elems k).has_phase_equilibrium := by
  unfold deactOutPhase; dsimp only; split <;> simp

@[simp] lemma has_pe_fixPhase :
    ((fixPhase keys comps a b).elems k).has_phase_equilibrium
      = (b.elems k).has_phase_equilibrium := by
  unfold fixPhase; dsimp only; split <;> simp

@[simp] lemma has_pe_deactPhase :
    ((deactPhase keys b).elems k).has_phase_equilibrium
      = (b.elems k).has_phase_equilibrium := by
  unfold deactPhase; dsimp only; split <;> simp

@[simp] lemma twoPhaseCond_deactOutPhase :
    twoPhaseCond (deactOutPhase keys b) k = twoPhaseCond b k := by
  unfold twoPhaseCond; rw [has_pe_deactOutPhase]; rfl

@[simp] lemma twoPhaseCond_fixPhase :
    twoPhaseCond (fixPhase keys comps a b) k = twoPhaseCond b k := by
  unfold twoPhaseCond; rw [has_pe_fixPhase]; rfl

@[simp] lemma twoPhaseCond_deactPhase :
    twoPhaseCond (deactPhase keys b) k = twoPhaseCond b k := by
  unfold twoPhaseCond; rw [has_pe_deactPhase]; rfl

/-- Solve events appearing in the five-step solve sequence: the first solve
appears exactly when the two-phase condition holds, the remaining four are
unconditional. -/
lemma solveSequence_mem_solve :
    Ev.solve n ∈ (solveSequence keys comps a kLast sv b).2
      ↔ ((n = 1 ∧ twoPhaseCond b kLast = true)
          ∨ n = 2 ∨ n = 3 ∨ n = 4 ∨ n = 5) := by
  unfold solveSequence
  dsimp only
  by_cases h : twoPhaseCond (deactPhase keys b) kLast = true <;>
    rw [twoPhaseCond_deactPhase] at h <;>
    simp [twoPhaseCond_deactPhase, h, List.mem_append]

/-- Solve events in the trace of a successful `initialise` run. -/
lemma initialise_mem_solve (hlast : keys.getLast? = some kLast)
    {r : InitResult} (hr : initialise keys comps a dof sv b0 = .ok r) :
    Ev.solve n ∈ r.trace
      ↔ ((n = 1 ∧ twoPhaseCond b0 kLast = true)
          ∨ n = 2 ∨ n = 3 ∨ n = 4 ∨ n = 5) := by
  unfold initialise at hr
  rw [hlast] at hr
  by_cases hsvf : a.state_vars_fixed = true
  · rw [hsvf] at hr
    simp only [if_true] at hr
    cases hdof : checkDof dof keys with
    | error msg => rw [hdof] at hr; cases hr
    | ok u =>
        rw [hdof] at hr
        injection hr with hr
        subst hr
        dsimp only
        simp [List.mem_append, solveSequence_mem_solve]
  · simp only [Bool.not_eq_true] at hsvf
    rw [hsvf] at hr
    simp only [Bool.false_eq_true, if_false] at hr
    by_cases hh : a.hold_state = true
    · rw [hh] at hr
      simp only [if_true] at hr
      injection hr with hr
      subst hr
      dsimp only
      simp [List.mem_append, solveSequence_mem_solve]
    · simp only [Bool.not_eq_true] at hh
      rw [hh] at hr
      simp only [Bool.false_eq_true, if_false] at hr
      injection hr with hr
      subst hr
      dsimp only
      simp [List.mem_append, solveSequence_mem_solve]

end TraceLemmas

/-- C4: the first solve phase of the property-package initializer (the
phase-equilibrium-only sub-system) runs if and only if the block is
two-phase, that is `has_phase_equilibrium` is set or `valid_phase` is a
vapor-liquid pair; for a single-phase block no solver call is issued in that
phase and the sequence proceeds to the mass-balance solve (step 2). -/
theorem C4_phase1_iff_two_phase
    (keys comps : List ℕ) (a : InitArgs) (dof : ℕ → ℤ) (sv : Solver)
    (b0 : Blk) (r : InitResult) (hpe : Bool)
    (hr : initialise keys comps a dof sv b0 = .ok r)
    (hcfg : ∀ k ∈ keys, (b0.elems k).has_phase_equilibrium = hpe) :
    (Ev.solve 1 ∈ r.trace ↔ (hpe || b0.valid_phase.isPair) = true)
    ∧ Ev.solve 2 ∈ r.trace := by
  cases hlast : keys.getLast? with
  | none =>
      rw [initialise, hlast] at hr
      cases hr
  | some kLast =>
      have hmem : kLast ∈ keys := by
        obtain ⟨hne, heq⟩ :=
          List.mem_getLast?_eq_getLast (Option.mem_def.mpr hlast)
        exact heq ▸ List.getLast_mem hne
      have h2 : twoPhaseCond b0 kLast = (hpe || b0.valid_phase.isPair) := by
        unfold twoPhaseCond
        rw [hcfg kLast hmem]
      constructor
      · rw [initialise_mem_solve hlast hr, h2]
        simp
      · rw [initialise_mem_solve hlast hr]
        simp

/-- Witness for C4 at a concrete single-phase liquid block: the first solve
is absent from the trace and the second is present. -/
theorem C4_phase1_iff_two_phase_witness :
    ∃ r, initialise [0] [0, 1] { hold_state := true } (fun _ => 0) wSolver
        { valid_phase := .Liq, activity_coeff_model := .Ideal,
          elems := fun _ => { C1wElem with has_phase_equilibrium := false } }
        = .ok r ∧ (Ev.solve 1 ∈ r.trace ↔ (false || ValidPhase.Liq.isPair) = true)
        ∧ Ev.solve 2 ∈ r.trace := by
  cases hr : initialise [0] [0, 1] { hold_state := true } (fun _ => 0) wSolver
      { valid_phase := .Liq, activity_coeff_model := .Ideal,
        elems := fun _ => { C1wElem with has_phase_equilibrium := false } } with
  | error e =>
      have hok : isOkB (initialise [0] [0, 1] { hold_state := true }
          (fun _ => 0) wSolver
          { valid_phase := .Liq, activity_coeff_model := .Ideal,
            elems := fun _ => { C1wElem with has_phase_equilibrium := false } })
          = true := rfl
      rw [hr] at hok
      exact absurd hok (by simp [isOkB])
  | ok r =>
      exact ⟨r, rfl, C4_phase1_iff_two_phase [0] [0, 1] { hold_state := true }
        (fun _ => 0) wSolver _ r false hr (by intro k _; rfl)⟩


section FixShapeLemmas

variable {keys comps : List ℕ} {a : InitArgs} {b b0 : Blk} {k kLast n : ℕ}
variable {sv : Solver} {dof : ℕ → ℤ} {v : SVar} {x : ℚ} {o st : ℕ} {t : TermCond}

@[simp] lemma fixv_not_mem_deactOutEvents :
    Ev.fixv k v x ∉ deactOutEvents keys b := by
  intro h
  simp only [deactOutEvents, List.mem_filterMap] at h
  obtain ⟨k', _, h⟩ := h
  split at h <;> simp_all

@[simp] lemma fixv_not_mem_deactPhaseEvents :
    Ev.fixv k v x ∉ deactPhaseEvents keys b := by
  intro h
  simp only [deactPhaseEvents, List.mem_flatMap, List.mem_filterMap] at h
  obtain ⟨k', _, c, _, h⟩ := h
  split at h <;> simp_all

@[simp] lemma fixv_not_mem_phase3Events :
    Ev.fixv k v x ∉ phase3Events keys b := by
  intro h
  unfold phase3Events at h
  split at h
  · simp only [List.mem_flatMap, List.mem_filterMap] at h
    obtain ⟨k', _, c, _, h⟩ := h
    split at h <;> simp_all
  · simp at h

@[simp] lemma fixv_not_mem_phase4Events :
    Ev.fixv k v x ∉ phase4Events keys comps b := by
  intro h
  unfold phase4Events at h
  split at h
  · simp only [List.mem_flatMap, List.mem_append, List.mem_map,
      List.mem_cons, List.mem_singleton] at h
    obtain ⟨k', _, h⟩ := h
    rcases h with h | ⟨j, _, h⟩ <;> simp_all
  · simp at h

@[simp] lemma fixv_not_mem_phase5Events :
    Ev.fixv k v x ∉ phase5Events keys b := by
  intro h
  simp only [phase5Events, List.mem_flatMap, List.mem_filterMap] at h
  obtain ⟨k', _, c, _, h⟩ := h
  split at h <;> simp_all

@[simp] lemma fixv_not_mem_restoreEvents :
    Ev.fixv k v x ∉ restoreEvents keys b := by
  intro h
  simp only [restoreEvents, List.mem_filterMap] at h
  obtain ⟨k', _, h⟩ := h
  split at h <;> simp_all

@[simp] lemma fixv_not_mem_releaseEvents {flags : Option Flags} :
    Ev.fixv k v x ∉ releaseEvents keys comps flags b := by
  intro h
  unfold releaseEvents at h
  split at h
  · simp at h
  · simp only [List.mem_flatMap, List.mem_append, List.mem_filterMap] at h
    obtain ⟨k', _, h⟩ := h
    rcases h with ((h | ⟨j, _, h⟩) | h) | h <;>
      · split at h <;> simp_all

@[simp] lemma fixv_not_mem_logEv : Ev.fixv k v x ∉ logEv o st t := by
  intro h
  unfold logEv at h
  split at h <;> simp_all

@[simp] lemma fixv_not_mem_skipEv : Ev.fixv k v x ∉ skipEv o st := by
  intro h
  unfold skipEv at h
  split at h <;> simp_all

/-- Fix events issued by the step-2 activation phase concern only the
activity coefficients. -/
lemma phase2Events_fixv_shape
    (h : Ev.fixv k v x ∈ phase2Events keys comps b) :
    ∃ j, v = SVar.activity_coeff_comp j := by
  simp only [phase2Events, List.mem_flatMap, List.mem_append,
    List.mem_filterMap, List.mem_map] at h
  obtain ⟨k', _, h⟩ := h
  rcases h with ⟨c, _, h⟩ | h
  · split at h <;> simp_all
  · split at h
    · simp only [List.mem_map] at h
      obtain ⟨j, _, h⟩ := h
      cases h
      exact ⟨j, rfl⟩
    · simp at h

/-- Fix events in the five-step solve sequence concern only the activity
coefficients. -/
lemma solveSequence_fixv_shape
    (h : Ev.fixv k v x ∈ (solveSequence keys comps a kLast sv b).2) :
    ∃ j, v = SVar.activity_coeff_comp j := by
  unfold solveSequence at h
  dsimp only at h
  cases hcond : twoPhaseCond (deactPhase keys b) kLast <;>
    · rw [hcond] at h
      simp at h
      exact phase2Events_fixv_shape h

end FixShapeLemmas

/-- C7: calling the property-package initializer with `state_vars_fixed=True`
raises a hard error exactly when some element of the indexed block has
non-zero degrees of freedom; when every element has zero degrees of freedom
no flag dictionary is returned, no state variable is fixed (the only fix
events concern activity coefficients), and the solve sequence runs. -/
theorem C7_state_vars_fixed_dof_check
    (keys comps : List ℕ) (a : InitArgs) (dof : ℕ → ℤ) (sv : Solver)
    (b0 : Blk) (kLast : ℕ) (hlast : keys.getLast? = some kLast)
    (hsvf : a.state_vars_fixed = true) :
    ((∃ msg, initialise keys comps a dof sv b0 = .error msg)
        ↔ ∃ k ∈ keys, dof k ≠ 0)
    ∧ (∀ r, initialise keys comps a dof sv b0 = .ok r →
        r.ret = none
        ∧ (∀ k v x, Ev.fixv k v x ∈ r.trace → ∃ j, v = SVar.activity_coeff_comp j)
        ∧ Ev.solve 2 ∈ r.trace ∧ Ev.solve 3 ∈ r.trace
        ∧ Ev.solve 4 ∈ r.trace ∧ Ev.solve 5 ∈ r.trace) := by
  constructor
  · unfold initialise
    rw [hlast, hsvf]
    simp only [if_true]
    cases hdof : checkDof dof keys with
    | error msg =>
        unfold checkDof at hdof
        constructor
        · intro _
          cases hfind : keys.find? (fun k => dof k != 0) with
          | none => rw [hfind] at hdof; cases hdof
          | some k =>
              refine ⟨k, List.mem_of_find?_eq_some hfind, ?_⟩
              have := List.find?_some hfind
              simpa using this
        · intro _
          exact ⟨msg, rfl⟩
    | ok u =>
        unfold checkDof at hdof
        constructor
        · rintro ⟨msg, hmsg⟩
          cases hmsg
        · rintro ⟨k, hk, hdk⟩
          cases hfind : keys.find? (fun k => dof k != 0) with
          | none =>
              have := List.find?_eq_none.mp hfind k hk
              simp only [bne_iff_ne, ne_eq, Decidable.not_not] at this
              exact absurd this hdk
          | some k' => rw [hfind] at hdof; cases hdof
  · intro r hr
    have hrs := hr
    unfold initialise at hrs
    rw [hlast, hsvf] at hrs
    simp only [if_true] at hrs
    cases hdof : checkDof dof keys with
    | error msg => rw [hdof] at hrs; cases hrs
    | ok u =>
        rw [hdof] at hrs
        injection hrs with hrs
        subst hrs
        refine ⟨rfl, ?_, ?_, ?_, ?_, ?_⟩
        · intro k v x hmem
          dsimp only at hmem
          rcases List.mem_append.mp hmem with h | h
          · exact absurd h fixv_not_mem_deactOutEvents
          · exact solveSequence_fixv_shape h
        all_goals
          rw [initialise_mem_solve hlast hr]
          simp

/-- Witness for C7 at a concrete block whose elements all have zero degrees
of freedom: no error is raised and the solve sequence runs. -/
theorem C7_state_vars_fixed_dof_check_witness :
    ((∃ msg, initialise [0] [0, 1] { state_vars_fixed := true } (fun _ => 0)
        wSolver C1wBlk = .error msg) ↔ ∃ k ∈ [0], (fun (_ : ℕ) => (0 : ℤ)) k ≠ 0)
    ∧ (∀ r, initialise [0] [0, 1] { state_vars_fixed := true } (fun _ => 0)
        wSolver C1wBlk = .ok r →
        r.ret = none
        ∧ (∀ k v x, Ev.fixv k v x ∈ r.trace → ∃ j, v = SVar.activity_coeff_comp j)
        ∧ Ev.solve 2 ∈ r.trace ∧ Ev.solve 3 ∈ r.trace
        ∧ Ev.solve 4 ∈ r.trace ∧ Ev.solve 5 ∈ r.trace) :=
  C7_state_vars_fixed_dof_check [0] [0, 1] { state_vars_fixed := true }
    (fun _ => 0) wSolver C1wBlk 0 rfl rfl


/-- Classifier for log events. -/
def Ev.isLog : Ev → Bool
  | .logStep _ _ => true
  | .logSkip _ => true
  | _ => false

/-- Trace with the log messages removed: everything the initialisation
sequence does apart from logging. -/
def stripLogs (tr : List Ev) : List Ev := tr.filter (fun ev => !ev.isLog)

section StripLemmas

variable {keys comps : List ℕ} {a : InitArgs} {b b0 : Blk} {kLast : ℕ}
variable {o st : ℕ} {t : TermCond}

@[simp] lemma stripLogs_append {l1 l2 : List Ev} :
    stripLogs (l1 ++ l2) = stripLogs l1 ++ stripLogs l2 := by
  simp [stripLogs]

@[simp] lemma stripLogs_logEv : stripLogs (logEv o st t) = [] := by
  unfold logEv
  split <;> simp [stripLogs, Ev.isLog]

@[simp] lemma stripLogs_skipEv : stripLogs (skipEv o st) = [] := by
  unfold skipEv
  split <;> simp [stripLogs, Ev.isLog]

@[simp] lemma stripLogs_solve_cons {n : ℕ} {l : List Ev} :
    stripLogs (Ev.solve n :: l) = Ev.solve n :: stripLogs l := by
  simp [stripLogs, Ev.isLog]

/-- The termination conditions reported by the solver influence neither the
final block state nor the non-log part of the solve-sequence trace. -/
lemma solveSequence_tc_irrelevant (keys comps : List ℕ) (a : InitArgs)
    (kLast : ℕ) (b : Blk) (tc1 tc2 : ℕ → TermCond)
    (assign : ℕ → ℕ → SVar → ℚ) :
    ((solveSequence keys comps a kLast ⟨tc1, assign⟩ b).1
        = (solveSequence keys comps a kLast ⟨tc2, assign⟩ b).1)
    ∧ stripLogs (solveSequence keys comps a kLast ⟨tc1, assign⟩ b).2
        = stripLogs (solveSequence keys comps a kLast ⟨tc2, assign⟩ b).2 := by
  unfold solveSequence
  dsimp only
  by_cases hcond : twoPhaseCond (deactPhase keys b) kLast = true <;>
    simp [hcond]

end StripLemmas

/-- C6: a non-optimal solver termination in any solve phase of the staged
initializer is only logged, never aborts the run: two runs whose solver
reports arbitrary different termination conditions produce the same mutated
block, the same returned flags, the same error behaviour and the same trace
up to log messages, and every successful run executes all remaining solve
phases (solves 2 through 5). -/
theorem C6_termination_only_logged
    (keys comps : List ℕ) (a : InitArgs) (dof : ℕ → ℤ)
    (tc1 tc2 : ℕ → TermCond) (assign : ℕ → ℕ → SVar → ℚ) (b0 : Blk) :
    ((initialise keys comps a dof ⟨tc1, assign⟩ b0).map
        (fun r => (r.blk, r.ret, stripLogs r.trace))
      = (initialise keys comps a dof ⟨tc2, assign⟩ b0).map
        (fun r => (r.blk, r.ret, stripLogs r.trace)))
    ∧ (∀ r, initialise keys comps a dof ⟨tc1, assign⟩ b0 = .ok r →
        Ev.solve 2 ∈ r.trace ∧ Ev.solve 3 ∈ r.trace
          ∧ Ev.solve 4 ∈ r.trace ∧ Ev.solve 5 ∈ r.trace) := by
  constructor
  · cases hlast : keys.getLast? with
    | none => unfold initialise; rw [hlast]
    | some kLast =>
        unfold initialise
        rw [hlast]
        by_cases hsvf : a.state_vars_fixed = true
        · rw [hsvf]
          simp only [if_true]
          cases hdof : checkDof dof keys with
          | error msg => rfl
          | ok u =>
              obtain ⟨hblk, htr⟩ :=
                solveSequence_tc_irrelevant keys comps a kLast
                  (deactOutPhase keys b0) tc1 tc2 assign
              simp only [Except.map]
              rw [hblk]
              simp only [Except.ok.injEq, Prod.mk.injEq, stripLogs_append, htr]
        · simp only [Bool.not_eq_true] at hsvf
          rw [hsvf]
          simp only [Bool.false_eq_true, if_false]
          obtain ⟨hblk, htr⟩ :=
            solveSequence_tc_irrelevant keys comps a kLast
              (fixPhase keys comps a (deactOutPhase keys b0)) tc1 tc2 assign
          by_cases hh : a.hold_state = true
          · rw [hh]
            simp only [if_true, Except.map]
            rw [hblk]
            simp only [Except.ok.injEq, Prod.mk.injEq, stripLogs_append, htr]
          · simp only [Bool.not_eq_true] at hh
            rw [hh]
            simp only [Bool.false_eq_true, if_false, Except.map]
            rw [hblk]
            simp only [Except.ok.injEq, Prod.mk.injEq, stripLogs_append, htr]
  · intro r hr
    cases hlast : keys.getLast? with
    | none => rw [initialise, hlast] at hr; cases hr
    | some kLast =>
        refine ⟨?_, ?_, ?_, ?_⟩ <;>
          · rw [initialise_mem_solve hlast hr]
            simp


section GijLemmas

variable {keys comps : List ℕ} {a : InitArgs} {b b0 : Blk} {k kLast i j : ℕ}
variable {sv : Solver} {dof : ℕ → ℤ} {f : ℕ → SVar → ℚ} {fl : Flags}

@[simp] lemma Gij_deactOutPhase :
    ((deactOutPhase keys b).elems k).Gij_coeff = (b.elems k).Gij_coeff := by
  unfold deactOutPhase; dsimp only; split <;> simp

@[simp] lemma Gij_fixPhase :
    ((fixPhase keys comps a b).elems k).Gij_coeff = (b.elems k).Gij_coeff := by
  unfold fixPhase; dsimp only; split <;> simp

@[simp] lemma Gij_deactPhase :
    ((deactPhase keys b).elems k).Gij_coeff = (b.elems k).Gij_coeff := by
  unfold deactPhase; dsimp only; split <;> simp

@[simp] lemma Gij_phase2 :
    ((phase2 keys comps b).elems k).Gij_coeff = (b.elems k).Gij_coeff := by
  unfold phase2; dsimp only; split <;> simp

@[simp] lemma Gij_phase3 :
    ((phase3 keys b).elems k).Gij_coeff = (b.elems k).Gij_coeff := by
  unfold phase3; dsimp only; split <;> simp

@[simp] lemma Gij_phase4 :
    ((phase4 keys comps b).elems k).Gij_coeff = (b.elems k).Gij_coeff := by
  unfold phase4; dsimp only; split <;> simp

@[simp] lemma Gij_phase5 :
    ((phase5 keys b).elems k).Gij_coeff = (b.elems k).Gij_coeff := by
  unfold phase5; dsimp only; split <;> simp

@[simp] lemma Gij_restorePhase :
    ((restorePhase keys b).elems k).Gij_coeff = (b.elems k).Gij_coeff := by
  unfold restorePhase; dsimp only; split <;> simp

@[simp] lemma Gij_release_state {flags : Option Flags} :
    ((release_state keys comps flags b).elems k).Gij_coeff
      = (b.elems k).Gij_coeff := by
  unfold release_state
  cases flags with
  | none => rfl
  | some fl => dsimp only; split <;> simp

lemma solveBlk_Gij_fixed (h : (b.elems k).Gij_coeff i j = ⟨1, true⟩) :
    ((solveBlk keys f b).elems k).Gij_coeff i j = ⟨1, true⟩ := by
  unfold solveBlk
  dsimp only
  split
  · rw [solveElem_Gij_of_fixed (by rw [h])]
    exact h
  · exact h

lemma solveSequence_Gij_fixed (h : (b.elems k).Gij_coeff i j = ⟨1, true⟩) :
    (((solveSequence keys comps a kLast sv b).1).elems k).Gij_coeff i j
      = ⟨1, true⟩ := by
  unfold solveSequence
  dsimp only
  split
  · dsimp only
    rw [Gij_restorePhase]
    apply solveBlk_Gij_fixed
    rw [Gij_phase5]
    apply solveBlk_Gij_fixed
    rw [Gij_phase4]
    apply solveBlk_Gij_fixed
    rw [Gij_phase3]
    apply solveBlk_Gij_fixed
    rw [Gij_phase2]
    apply solveBlk_Gij_fixed
    rw [Gij_deactPhase]
    exact h
  · dsimp only
    rw [Gij_restorePhase]
    apply solveBlk_Gij_fixed
    rw [Gij_phase5]
    apply solveBlk_Gij_fixed
    rw [Gij_phase4]
    apply solveBlk_Gij_fixed
    rw [Gij_phase3]
    apply solveBlk_Gij_fixed
    rw [Gij_phase2, Gij_deactPhase]
    exact h

/-- Through a whole successful `initialise` run, a fixed diagonal entry of
the interaction-coefficient matrix keeps its value and fixed flag. -/
lemma initialise_Gij_fixed {r : InitResult}
    (hr : initialise keys comps a dof sv b0 = .ok r)
    (h : (b0.elems k).Gij_coeff i j = ⟨1, true⟩) :
    ((r.blk.elems k).Gij_coeff i j) = ⟨1, true⟩ := by
  cases hlast : keys.getLast? with
  | none => rw [initialise, hlast] at hr; cases hr
  | some kLast =>
      unfold initialise at hr
      rw [hlast] at hr
      by_cases hsvf : a.state_vars_fixed = true
      · rw [hsvf] at hr
        simp only [if_true] at hr
        cases hdof : checkDof dof keys with
        | error msg => rw [hdof] at hr; cases hr
        | ok u =>
            rw [hdof] at hr
            injection hr with hr
            subst hr
            dsimp only
            apply solveSequence_Gij_fixed
            rw [Gij_deactOutPhase]
            exact h
      · simp only [Bool.not_eq_true] at hsvf
        rw [hsvf] at hr
        simp only [Bool.false_eq_true, if_false] at hr
        by_cases hh : a.hold_state = true
        · rw [hh] at hr
          simp only [if_true] at hr
          injection hr with hr
          subst hr
          dsimp only
          apply solveSequence_Gij_fixed
          rw [Gij_fixPhase, Gij_deactOutPhase]
          exact h
        · simp only [Bool.not_eq_true] at hh
          rw [hh] at hr
          simp only [Bool.false_eq_true, if_false] at hr
          injection hr with hr
          subst hr
          dsimp only
          rw [Gij_release_state]
          apply solveSequence_Gij_fixed
          rw [Gij_fixPhase, Gij_deactOutPhase]
          exact h

end GijLemmas

/-- C9: for a state block built with the NRTL or the Wilson activity model,
every diagonal interaction coefficient `Gij_coeff[i, i]` equals 1 and is
fixed at construction time, the constraint `eq_Gij_coeff` generates no
equation for the diagonal (its index set has no pair `(i, i)`), and a fixed
diagonal entry is still fixed at 1 after every phase of a successful
initialisation run. -/
theorem C9_Gij_diagonal_fixed_one
    (comps : List ℕ) (e : Elem) (i : ℕ) (hi : i ∈ comps) :
    ((make_NRTL_eq comps e).Gij_coeff i i = ⟨1, true⟩)
    ∧ ((make_Wilson_eq comps e).Gij_coeff i i = ⟨1, true⟩)
    ∧ ((i, i) ∉ eq_Gij_coeff_index comps)
    ∧ (∀ (keys comps' : List ℕ) (a : InitArgs) (dof : ℕ → ℤ) (sv : Solver)
        (b0 : Blk) (r : InitResult) (k : ℕ),
        initialise keys comps' a dof sv b0 = .ok r →
        (b0.elems k).Gij_coeff i i = ⟨1, true⟩ →
        (r.blk.elems k).Gij_coeff i i = ⟨1, true⟩) := by
  refine ⟨?_, ?_, ?_, ?_⟩
  · simp [make_NRTL_eq, hi]
  · simp [make_Wilson_eq, hi]
  · intro h
    simp only [eq_Gij_coeff_index, List.mem_flatMap, List.mem_filterMap] at h
    obtain ⟨i', _, j', _, h⟩ := h
    split at h
    · cases h
    · rename_i hne
      cases h
      exact hne rfl
  · intro keys comps' a dof sv b0 r k hr h
    exact initialise_Gij_fixed hr h

/-- Witness for C9 at concrete two-component data. -/
theorem C9_Gij_diagonal_fixed_one_witness :
    ((make_NRTL_eq [0, 1] C1wElem).Gij_coeff 0 0 = ⟨1, true⟩)
    ∧ ((make_Wilson_eq [0, 1] C1wElem).Gij_coeff 0 0 = ⟨1, true⟩)
    ∧ ((0, 0) ∉ eq_Gij_coeff_index [0, 1])
    ∧ (∀ (keys comps' : List ℕ) (a : InitArgs) (dof : ℕ → ℤ) (sv : Solver)
        (b0 : Blk) (r : InitResult) (k : ℕ),
        initialise keys comps' a dof sv b0 = .ok r →
        (b0.elems k).Gij_coeff 0 0 = ⟨1, true⟩ →
        (r.blk.elems k).Gij_coeff 0 0 = ⟨1, true⟩) :=
  C9_Gij_diagonal_fixed_one [0, 1] C1wElem 0 (by decide)


section Phase34Lemmas

variable {keys comps : List ℕ} {a : InitArgs} {b b0 : Blk} {k kLast i j : ℕ}
variable {sv : Solver} {dof : ℕ → ℤ} {f : ℕ → SVar → ℚ} {v : SVar} {x : ℚ}
variable {c : ConName}

@[simp] lemma conPresent_deactOutPhase :
    ((deactOutPhase keys b).elems k).conPresent = (b.elems k).conPresent := by
  unfold deactOutPhase; dsimp only; split <;> simp

@[simp] lemma conPresent_fixPhase :
    ((fixPhase keys comps a b).elems k).conPresent = (b.elems k).conPresent := by
  unfold fixPhase; dsimp only; split <;> simp

@[simp] lemma conPresent_deactPhase :
    ((deactPhase keys b).elems k).conPresent = (b.elems k).conPresent := by
  unfold deactPhase; dsimp only; split <;> simp

@[simp] lemma conPresent_solveBlk :
    ((solveBlk keys f b).elems k).conPresent = (b.elems k).conPresent := by
  unfold solveBlk; dsimp only; split <;> simp

@[simp] lemma conPresent_phase2 :
    ((phase2 keys comps b).elems k).conPresent = (b.elems k).conPresent := by
  unfold phase2; dsimp only; split <;> simp

/-- Membership of the ideal-assumption fix events in the step-2 phase. -/
lemma fixv_ac_mem_phase2Events (hk : k ∈ keys) (hj : j ∈ comps)
    (hni : b.activity_coeff_model ≠ ActModel.Ideal) :
    Ev.fixv k (SVar.activity_coeff_comp j) 1 ∈ phase2Events keys comps b := by
  simp only [phase2Events, List.mem_flatMap]
  refine ⟨k, hk, ?_⟩
  simp only [List.mem_append]
  right
  rw [if_pos hni]
  simp only [List.mem_map]
  exact ⟨j, hj, rfl⟩

/-- Membership of the auxiliary-constraint activations in the step-3 phase. -/
lemma activate_mem_phase3Events (hk : k ∈ keys)
    (hni : b.activity_coeff_model ≠ ActModel.Ideal)
    (hc : c ∈ act3List) (hpres : (b.elems k).conPresent c = true) :
    Ev.activate k c ∈ phase3Events keys b := by
  unfold phase3Events
  rw [if_pos hni]
  simp only [List.mem_flatMap]
  refine ⟨k, hk, ?_⟩
  simp only [List.mem_filterMap]
  exact ⟨c, hc, by rw [if_pos hpres]⟩

/-- Membership of the `eq_activity_coeff` activation in the step-4 phase. -/
lemma activate_ac_mem_phase4Events (hk : k ∈ keys)
    (hni : b.activity_coeff_model ≠ ActModel.Ideal) :
    Ev.activate k ConName.eq_activity_coeff ∈ phase4Events keys comps b := by
  unfold phase4Events
  rw [if_pos hni]
  simp only [List.mem_flatMap]
  exact ⟨k, hk, by simp⟩

/-- Membership of the activity-coefficient unfix events in the step-4
phase. -/
lemma unfixv_mem_phase4Events (hk : k ∈ keys) (hj : j ∈ comps)
    (hni : b.activity_coeff_model ≠ ActModel.Ideal) :
    Ev.unfixv k (SVar.activity_coeff_comp j) ∈ phase4Events keys comps b := by
  unfold phase4Events
  rw [if_pos hni]
  simp only [List.mem_flatMap]
  refine ⟨k, hk, ?_⟩
  simp only [List.mem_append, List.mem_map]
  exact Or.inr ⟨j, hj, rfl⟩

lemma phase3Events_of_ideal (hid : b.activity_coeff_model = ActModel.Ideal) :
    phase3Events keys b = [] := by
  unfold phase3Events
  rw [if_neg (by simp [hid])]

lemma phase4Events_of_ideal (hid : b.activity_coeff_model = ActModel.Ideal) :
    phase4Events keys comps b = [] := by
  unfold phase4Events
  rw [if_neg (by simp [hid])]

lemma phase2Events_no_fixv_of_ideal
    (hid : b.activity_coeff_model = ActModel.Ideal) :
    Ev.fixv k v x ∉ phase2Events keys comps b := by
  intro h
  simp only [phase2Events, List.mem_flatMap, List.mem_append,
    List.mem_filterMap] at h
  obtain ⟨k', _, h⟩ := h
  rcases h with ⟨c, _, h⟩ | h
  · split at h <;> simp_all
  · rw [if_neg (by simp [hid])] at h
    simp at h

/-- With the Ideal model the five-step solve sequence issues no fix event at
all. -/
lemma solveSequence_no_fixv_of_ideal
    (hid : b.activity_coeff_model = ActModel.Ideal) :
    Ev.fixv k v x ∉ (solveSequence keys comps a kLast sv b).2 := by
  intro h
  unfold solveSequence at h
  dsimp only at h
  cases hcond : twoPhaseCond (deactPhase keys b) kLast <;>
    · rw [hcond] at h
      simp at h
      refine absurd h (phase2Events_no_fixv_of_ideal ?_)
      exact hid

@[simp] lemma fixv_activity_not_mem_fixPhaseEvents :
    Ev.fixv k (SVar.activity_coeff_comp j) x ∉ fixPhaseEvents keys comps a b := by
  intro h
  simp only [fixPhaseEvents, List.mem_flatMap, List.mem_append,
    List.mem_filterMap] at h
  obtain ⟨k', _, h⟩ := h
  rcases h with ((h | ⟨j', _, h⟩) | h) | h <;>
    · split at h <;> simp_all

/-- Decomposition of the five-step solve-sequence trace into the four
unconditional solves and the mutation segments between them. -/
lemma solveSequence_decomp (keys comps : List ℕ) (a : InitArgs)
    (kLast : ℕ) (sv : Solver) (b : Blk) :
    ∃ (t0 t1 t2 t3 t4 : List Ev) (b4 b6 b7 : Blk),
      (solveSequence keys comps a kLast sv b).2
        = t0 ++ phase2Events keys comps b4 ++ [Ev.solve 2] ++ t1
            ++ phase3Events keys b6 ++ [Ev.solve 3] ++ t2
            ++ phase4Events keys comps b7 ++ [Ev.solve 4] ++ t3
            ++ [Ev.solve 5] ++ t4
      ∧ b4.activity_coeff_model = b.activity_coeff_model
      ∧ b6.activity_coeff_model = b.activity_coeff_model
      ∧ b7.activity_coeff_model = b.activity_coeff_model
      ∧ (∀ k, (b4.elems k).conPresent = (b.elems k).conPresent)
      ∧ (∀ k, (b6.elems k).conPresent = (b.elems k).conPresent) := by
  unfold solveSequence
  dsimp only
  split
  · refine ⟨deactPhaseEvents keys b ++ ([Ev.solve 1] ++ logEv a.outlvl 1 (sv.tc 1)),
      logEv a.outlvl 2 (sv.tc 2), logEv a.outlvl 3 (sv.tc 3),
      logEv a.outlvl 4 (sv.tc 4)
        ++ phase5Events keys (solveBlk keys (sv.assign 4) (phase4 keys comps
            (solveBlk keys (sv.assign 3) (phase3 keys (solveBlk keys (sv.assign 2)
              (phase2 keys comps (solveBlk keys (sv.assign 1)
                (deactPhase keys b)))))))),
      logEv a.outlvl 5 (sv.tc 5)
        ++ restoreEvents keys (solveBlk keys (sv.assign 5) (phase5 keys
            (solveBlk keys (sv.assign 4) (phase4 keys comps
              (solveBlk keys (sv.assign 3) (phase3 keys (solveBlk keys (sv.assign 2)
                (phase2 keys comps (solveBlk keys (sv.assign 1)
                  (deactPhase keys b)))))))))),
      solveBlk keys (sv.assign 1) (deactPhase keys b),
      solveBlk keys (sv.assign 2) (phase2 keys comps
        (solveBlk keys (sv.assign 1) (deactPhase keys b))),
      solveBlk keys (sv.assign 3) (phase3 keys (solveBlk keys (sv.assign 2)
        (phase2 keys comps (solveBlk keys (sv.assign 1) (deactPhase keys b))))),
      ?_, rfl, rfl, rfl, ?_, ?_⟩
    · simp [List.append_assoc]
    · intro k; simp
    · intro k; simp
  · refine ⟨deactPhaseEvents keys b ++ skipEv a.outlvl 1,
      logEv a.outlvl 2 (sv.tc 2), logEv a.outlvl 3 (sv.tc 3),
      logEv a.outlvl 4 (sv.tc 4)
        ++ phase5Events keys (solveBlk keys (sv.assign 4) (phase4 keys comps
            (solveBlk keys (sv.assign 3) (phase3 keys (solveBlk keys (sv.assign 2)
              (phase2 keys comps (deactPhase keys b))))))),
      logEv a.outlvl 5 (sv.tc 5)
        ++ restoreEvents keys (solveBlk keys (sv.assign 5) (phase5 keys
            (solveBlk keys (sv.assign 4) (phase4 keys comps
              (solveBlk keys (sv.assign 3) (phase3 keys (solveBlk keys (sv.assign 2)
                (phase2 keys comps (deactPhase keys b))))))))),
      deactPhase keys b,
      solveBlk keys (sv.assign 2) (phase2 keys comps (deactPhase keys b)),
      solveBlk keys (sv.assign 3) (phase3 keys (solveBlk keys (sv.assign 2)
        (phase2 keys comps (deactPhase keys b)))),
      ?_, rfl, rfl, rfl, ?_, ?_⟩
    · simp [List.append_assoc]
    · intro k; simp
    · intro k; simp

end Phase34Lemmas


/-- C5 (amended): for every successful run, the trace decomposes around the
four unconditional solves; for a non-ideal activity model the initializer
fixes `activity_coeff_comp` to 1 before the mass-balance solve (solve 2),
activates the auxiliary constraints `eq_Gij_coeff`, `eq_A`, `eq_B` in the
phase between solve 2 and solve 3, and only in the phase between solve 3 and
solve 4 activates `eq_activity_coeff` and unfixes `activity_coeff_comp`; for
the Ideal model none of these fix, unfix or activation events occur. -/
theorem C5_staged_activity_coeff_activation
    (keys comps : List ℕ) (a : InitArgs) (dof : ℕ → ℤ) (sv : Solver)
    (b0 : Blk) (r : InitResult)
    (hr : initialise keys comps a dof sv b0 = .ok r) :
    ∃ (t0 t1 t2 t3 t4 p2 p3 p4 : List Ev),
      r.trace = t0 ++ p2 ++ [Ev.solve 2] ++ t1 ++ p3 ++ [Ev.solve 3] ++ t2
          ++ p4 ++ [Ev.solve 4] ++ t3 ++ [Ev.solve 5] ++ t4
      ∧ (b0.activity_coeff_model ≠ ActModel.Ideal →
          ∀ k ∈ keys,
            (∀ j ∈ comps,
              Ev.fixv k (SVar.activity_coeff_comp j) 1 ∈ p2
              ∧ Ev.unfixv k (SVar.activity_coeff_comp j) ∈ p4)
            ∧ Ev.activate k ConName.eq_activity_coeff ∈ p4
            ∧ (∀ c ∈ act3List,
                (b0.elems k).conPresent c = true → Ev.activate k c ∈ p3))
      ∧ (b0.activity_coeff_model = ActModel.Ideal →
          p3 = [] ∧ p4 = []
          ∧ ∀ k j x, Ev.fixv k (SVar.activity_coeff_comp j) x ∉ r.trace) := by
  have main : ∀ (pre post : List Ev) (b2 : Blk),
      b2.activity_coeff_model = b0.activity_coeff_model →
      (∀ k, (b2.elems k).conPresent = (b0.elems k).conPresent) →
      (∀ k j x, Ev.fixv k (SVar.activity_coeff_comp j) x ∉ pre) →
      (∀ k j x, Ev.fixv k (SVar.activity_coeff_comp j) x ∉ post) →
      ∀ kLast, r.trace = pre ++ (solveSequence keys comps a kLast sv b2).2 ++ post →
      ∃ (t0 t1 t2 t3 t4 p2 p3 p4 : List Ev),
        r.trace = t0 ++ p2 ++ [Ev.solve 2] ++ t1 ++ p3 ++ [Ev.solve 3] ++ t2
            ++ p4 ++ [Ev.solve 4] ++ t3 ++ [Ev.solve 5] ++ t4
        ∧ (b0.activity_coeff_model ≠ ActModel.Ideal →
            ∀ k ∈ keys,
              (∀ j ∈ comps,
                Ev.fixv k (SVar.activity_coeff_comp j) 1 ∈ p2
                ∧ Ev.unfixv k (SVar.activity_coeff_comp j) ∈ p4)
              ∧ Ev.activate k ConName.eq_activity_coeff ∈ p4
              ∧ (∀ c ∈ act3List,
                  (b0.elems k).conPresent c = true → Ev.activate k c ∈ p3))
        ∧ (b0.activity_coeff_model = ActModel.Ideal →
            p3 = [] ∧ p4 = []
            ∧ ∀ k j x, Ev.fixv k (SVar.activity_coeff_comp j) x ∉ r.trace) := by
    intro pre post b2 hmod hpres hpre hpost kLast htr
    obtain ⟨t0, t1, t2, t3, t4, b4, b6, b7, hdec, hm4, hm6, hm7, hp4, hp6⟩ :=
      solveSequence_decomp keys comps a kLast sv b2
    refine ⟨pre ++ t0, t1, t2, t3, t4 ++ post,
      phase2Events keys comps b4, phase3Events keys b6,
      phase4Events keys comps b7, ?_, ?_, ?_⟩
    · rw [htr, hdec]
      simp [List.append_assoc]
    · intro hni k hk
      have hni4 : b4.activity_coeff_model ≠ ActModel.Ideal := by
        rw [hm4, hmod]; exact hni
      have hni6 : b6.activity_coeff_model ≠ ActModel.Ideal := by
        rw [hm6, hmod]; exact hni
      have hni7 : b7.activity_coeff_model ≠ ActModel.Ideal := by
        rw [hm7, hmod]; exact hni
      refine ⟨fun j hj => ⟨fixv_ac_mem_phase2Events hk hj hni4,
          unfixv_mem_phase4Events hk hj hni7⟩,
        activate_ac_mem_phase4Events hk hni7, ?_⟩
      intro c hc hcp
      refine activate_mem_phase3Events hk hni6 hc ?_
      rw [hp6 k, hpres k]
      exact hcp
    · intro hid
      have hid2 : b2.activity_coeff_model = ActModel.Ideal := by rw [hmod]; exact hid
      refine ⟨phase3Events_of_ideal (by rw [hm6]; exact hid2),
        phase4Events_of_ideal (by rw [hm7]; exact hid2), ?_⟩
      intro k j x hmem
      rw [htr] at hmem
      rcases List.mem_append.mp hmem with hmem | hmem
      · rcases List.mem_append.mp hmem with hmem | hmem
        · exact hpre k j x hmem
        · exact solveSequence_no_fixv_of_ideal hid2 hmem
      · exact hpost k j x hmem
  cases hlast : keys.getLast? with
  | none => rw [initialise, hlast] at hr; cases hr
  | some kLast =>
      unfold initialise at hr
      rw [hlast] at hr
      by_cases hsvf : a.state_vars_fixed = true
      · rw [hsvf] at hr
        simp only [if_true] at hr
        cases hdof : checkDof dof keys with
        | error msg => rw [hdof] at hr; cases hr
        | ok u =>
            rw [hdof] at hr
            injection hr with hr
            subst hr
            refine main (deactOutEvents keys b0) [] (deactOutPhase keys b0)
              rfl (fun k => by simp)
              (fun k j x => fixv_not_mem_deactOutEvents) (fun k j x => by simp)
              kLast ?_
            simp
      · simp only [Bool.not_eq_true] at hsvf
        rw [hsvf] at hr
        simp only [Bool.false_eq_true, if_false] at hr
        by_cases hh : a.hold_state = true
        · rw [hh] at hr
          simp only [if_true] at hr
          injection hr with hr
          subst hr
          refine main (deactOutEvents keys b0
              ++ fixPhaseEvents keys comps a (deactOutPhase keys b0)) []
            (fixPhase keys comps a (deactOutPhase keys b0))
            rfl (fun k => by simp)
            (fun k j x h => by
              rcases List.mem_append.mp h with h | h
              · exact fixv_not_mem_deactOutEvents h
              · exact fixv_activity_not_mem_fixPhaseEvents h)
            (fun k j x => by simp) kLast ?_
          simp [List.append_assoc]
        · simp only [Bool.not_eq_true] at hh
          rw [hh] at hr
          simp only [Bool.false_eq_true, if_false] at hr
          injection hr with hr
          subst hr
          refine main (deactOutEvents keys b0
              ++ fixPhaseEvents keys comps a (deactOutPhase keys b0))
            (releaseEvents keys comps (some (mkFlags (deactOutPhase keys b0)))
              ((solveSequence keys comps a kLast sv
                (fixPhase keys comps a (deactOutPhase keys b0))).1))
            (fixPhase keys comps a (deactOutPhase keys b0))
            rfl (fun k => by simp)
            (fun k j x h => by
              rcases List.mem_append.mp h with h | h
              · exact fixv_not_mem_deactOutEvents h
              · exact fixv_activity_not_mem_fixPhaseEvents h)
            (fun k j x => fixv_not_mem_releaseEvents) kLast ?_
          simp [List.append_assoc]

/-- Concrete element for the C5 counterexample: all four state variables
pre-fixed, a defined state, both constraints and configuration of a
two-phase NRTL block. -/
def C5Elem : Elem where
  defined_state := true
  has_phase_equilibrium := true
  flow_mol := ⟨1, true⟩
  mole_frac := fun _ => ⟨1/2, true⟩
  pressure := ⟨101325, true⟩
  temperature := ⟨300, true⟩
  activity_coeff_comp := fun _ => ⟨1, false⟩
  Gij_coeff := fun i j => if i = j then ⟨1, true⟩ else ⟨1, false⟩
  conPresent := fun _ => true
  conActive := fun _ => true

/-- Concrete two-component NRTL block for the C5 counterexample. -/
def C5Blk : Blk where
  valid_phase := .LiqVap
  activity_coeff_model := .NRTL
  elems := fun _ => C5Elem

/-- Trace of the concrete C5 run. -/
def C5trace : List Ev :=
  match initialise [0] [0, 1] {} (fun _ => 0) wSolver C5Blk with
  | .ok r => r.trace
  | .error _ => []

/-- Counterexample to C5 as stated: in the concrete NRTL run the activation
of `eq_Gij_coeff` (which happens exactly once) is separated from the
activation of `eq_activity_coeff` (also exactly once) by the third solver
call, so `eq_activity_coeff` is NOT reactivated together with the
`eq_Gij_coeff`, `eq_A`, `eq_B` auxiliary constraints in a single phase: an
intermediate solve runs with the auxiliary constraints active, the activity
coefficients still fixed at 1 and `eq_activity_coeff` still inactive. -/
theorem C5_counterexample_solve_between :
    C5trace.count (Ev.activate 0 .eq_Gij_coeff) = 1
    ∧ C5trace.count (Ev.activate 0 .eq_activity_coeff) = 1
    ∧ Ev.solve 3 ∈ C5trace
    ∧ C5trace.indexOf (Ev.activate 0 .eq_Gij_coeff)
        < C5trace.indexOf (Ev.solve 3)
    ∧ C5trace.indexOf (Ev.solve 3)
        < C5trace.indexOf (Ev.activate 0 .eq_activity_coeff) := by
  decide

/-- Witness for the amended C5 at the concrete NRTL block. -/
theorem C5_staged_activity_coeff_activation_witness :
    ∃ r, initialise [0] [0, 1] {} (fun _ => 0) wSolver C5Blk = .ok r ∧
      ∃ (t0 t1 t2 t3 t4 p2 p3 p4 : List Ev),
        r.trace = t0 ++ p2 ++ [Ev.solve 2] ++ t1 ++ p3 ++ [Ev.solve 3] ++ t2
            ++ p4 ++ [Ev.solve 4] ++ t3 ++ [Ev.solve 5] ++ t4
        ∧ (C5Blk.activity_coeff_model ≠ ActModel.Ideal →
            ∀ k ∈ [0],
              (∀ j ∈ [0, 1],
                Ev.fixv k (SVar.activity_coeff_comp j) 1 ∈ p2
                ∧ Ev.unfixv k (SVar.activity_coeff_comp j) ∈ p4)
              ∧ Ev.activate k ConName.eq_activity_coeff ∈ p4
              ∧ (∀ c ∈ act3List,
                  (C5Blk.elems k).conPresent c = true → Ev.activate k c ∈ p3))
        ∧ (C5Blk.activity_coeff_model = ActModel.Ideal →
            p3 = [] ∧ p4 = []
            ∧ ∀ k j x, Ev.fixv k (SVar.activity_coeff_comp j) x ∉ r.trace) := by
  cases hr : initialise [0] [0, 1] {} (fun _ => 0) wSolver C5Blk with
  | error e =>
      have hok : isOkB (initialise [0] [0, 1] {} (fun _ => 0) wSolver C5Blk)
          = true := rfl
      rw [hr] at hok
      exact absurd hok (by simp [isOkB])
  | ok r =>
      exact ⟨r, rfl, C5_staged_activity_coeff_activation [0] [0, 1] {}
        (fun _ => 0) wSolver C5Blk r hr⟩

end ActivityCoeff


namespace Powerplant

open ActivityCoeff (VarSt)

/-- Names of the feedwater-heater mixers of the flowsheet (including the
deaerator `fwh5_da`), used to index their `drain` and `steam` inlet ports. -/
inductive MixerName
  | condenser_mix
  | fwh1_mix
  | fwh2_mix
  | fwh3_mix
  | fwh5_da
  | fwh6_mix
  | fwh7_mix
deriving DecidableEq, Repr

/-- Variables of the flowsheet model that `set_model_input` and the staged
`initialize` routine fix, unfix or assign.  Turbines, feedwater heaters and
splitters are indexed by their number; splitter split fractions carry the
splitter number and the outlet number. -/
inductive FVar
  | boiler_inlet_flow_mol
  | boiler_inlet_pressure
  | boiler_inlet_enth_mol
  | boiler_outlet_pressure
  | reheater_deltaP
  | turbine_ratioP (i : ℕ)
  | turbine_efficiency_isentropic (i : ℕ)
  | cond_pump_efficiency_pump
  | cond_pump_deltaP
  | makeup_flow_mol
  | makeup_pressure
  | makeup_enth_mol
  | fwh_area (i : ℕ)
  | fwh_overall_heat_transfer_coefficient (i : ℕ)
  | split_fraction (t outlet : ℕ)
  | bfp_efficiency_pump
  | bfp_outlet_pressure
  | bfpt_efficiency_isentropic
  | drain_flow_mol (u : MixerName)
  | drain_pressure (u : MixerName)
  | drain_enth_mol (u : MixerName)
  | steam_flow_mol (u : MixerName)
  | steam_pressure (u : MixerName)
  | steam_enth_mol (u : MixerName)
  | fwh8_inlet1_flow_mol
  | fwh8_inlet1_pressure
  | fwh8_inlet1_enth_mol
deriving DecidableEq, Repr

/-- Constraints of the flowsheet that the staged initializer activates and
deactivates: the bfpt outlet-pressure constraint (source lines 360-365), the
bfp/bfpt power-balance constraint (lines 371-376), and the seven
feedwater-heater saturated-liquid constraints `fwhN_vaporfrac_constraint`
(lines 272-278). -/
inductive FCon
  | constraint_out_pressure
  | constraint_bfp_power
  | vaporfrac_constraint (i : ℕ)
deriving DecidableEq, Repr

/-- Unit blocks whose `initialize` routines the flowsheet initializer calls
in sequence. -/
inductive UnitName
  | boiler
  | reheater
  | condenser
  | condenser_mix
  | cond_pump
  | bfp
  | bfpt
  | fwh5_da
  | turbine (i : ℕ)
  | t_splitter (i : ℕ)
  | fwh (i : ℕ)
  | fwh_mix (i : ℕ)
deriving DecidableEq, Repr

/-- One primitive operation of the straight-line flowsheet code: fixing,
unfixing or assigning a variable, (de)activating a constraint, calling one
unit's initialisation routine, or the final global square solve.  The
`copy_port_values` calls of the source only copy variable values between
ports and are not tracked. -/
inductive FOp
  | fixv (v : FVar) (x : ℚ)
  | unfixv (v : FVar)
  | setValue (v : FVar) (x : ℚ)
  | deact (c : FCon)
  | act (c : FCon)
  | initUnit (u : UnitName)
  | solveAll
deriving DecidableEq, Repr

/-- Bookkeeping state of the flowsheet model: the tracked variables, the
tracked constraints' activity, and (modelled from the spec, see
`create_model_spec`) the counts of the untracked free variables and
untracked active equality constraints of the wired flowsheet. -/
structure FModel where
  fvars : FVar → VarSt
  conActive : FCon → Bool
  otherFree : ℕ
  activeEq : ℕ

/-- Effect of one operation on the bookkeeping state.  `fix x` sets value
and flag, `unfix` clears the flag, a plain value assignment keeps the flag;
unit initialisation routines restore every fixed flag they touch and the
global solve rewrites only free-variable values, so neither changes this
state. -/
def applyFOp (m : FModel) : FOp → FModel
  | .fixv v x => { m with fvars := Function.update m.fvars v ⟨x, true⟩ }
  | .unfixv v => { m with fvars := Function.update m.fvars v ⟨(m.fvars v).val, false⟩ }
  | .setValue v x => { m with fvars := Function.update m.fvars v ⟨x, (m.fvars v).fixed⟩ }
  | .deact c => { m with conActive := Function.update m.conActive c false }
  | .act c => { m with conActive := Function.update m.conActive c true }
  | .initUnit _ => m
  | .solveAll => m

/-- Sequential execution of a straight-line operation list. -/
def runOps (ops : List FOp) (m : FModel) : FModel := ops.foldl applyFOp m

lemma runOps_cons {op : FOp} {ops : List FOp} {m : FModel} :
    runOps (op :: ops) m = runOps ops (applyFOp m op) := rfl

lemma runOps_append {l1 l2 : List FOp} {m : FModel} :
    runOps (l1 ++ l2) m = runOps l2 (runOps l1 m) := by
  unfold runOps
  rw [List.foldl_append]

/-- Effect of one operation on a single tracked variable. -/
def stepVar (v : FVar) (s : VarSt) : FOp → VarSt
  | .fixv v' x => if v' = v then ⟨x, true⟩ else s
  | .unfixv v' => if v' = v then ⟨s.val, false⟩ else s
  | .setValue v' x => if v' = v then ⟨x, s.fixed⟩ else s
  | _ => s

lemma applyFOp_fvars {m : FModel} {op : FOp} {v : FVar} :
    (applyFOp m op).fvars v = stepVar v (m.fvars v) op := by
  cases op with
  | fixv v' x =>
      rcases eq_or_ne v' v with h | h
      · subst h; simp [applyFOp, stepVar]
      · simp [applyFOp, stepVar, Function.update_apply, h, h.symm]
  | unfixv v' =>
      rcases eq_or_ne v' v with h | h
      · subst h; simp [applyFOp, stepVar]
      · simp [applyFOp, stepVar, Function.update_apply, h, h.symm]
  | setValue v' x =>
      rcases eq_or_ne v' v with h | h
      · subst h; simp [applyFOp, stepVar]
      · simp [applyFOp, stepVar, Function.update_apply, h, h.symm]
  | deact c => rfl
  | act c => rfl
  | initUnit u => rfl
  | solveAll => rfl

/-- The final state of one tracked variable is the fold of the per-variable
steps over the operation list. -/
lemma runOps_fvars (ops : List FOp) (v : FVar) (m : FModel) :
    (runOps ops m).fvars v = ops.foldl (stepVar v) (m.fvars v) := by
  induction ops generalizing m with
  | nil => rfl
  | cons op ops ih =>
      rw [runOps_cons, ih, applyFOp_fvars]
      rfl

/-- Effect of one operation on a single tracked constraint's activity. -/
def stepCon (c : FCon) (s : Bool) : FOp → Bool
  | .deact c' => if c' = c then false else s
  | .act c' => if c' = c then true else s
  | _ => s

lemma applyFOp_conActive {m : FModel} {op : FOp} {c : FCon} :
    (applyFOp m op).conActive c = stepCon c (m.conActive c) op := by
  cases op with
  | deact c' =>
      rcases eq_or_ne c' c with h | h
      · subst h; simp [applyFOp, stepCon]
      · simp [applyFOp, stepCon, Function.update_apply, h, h.symm]
  | act c' =>
      rcases eq_or_ne c' c with h | h
      · subst h; simp [applyFOp, stepCon]
      · simp [applyFOp, stepCon, Function.update_apply, h, h.symm]
  | fixv v x => rfl
  | unfixv v => rfl
  | setValue v x => rfl
  | initUnit u => rfl
  | solveAll => rfl

lemma runOps_conActive (ops : List FOp) (c : FCon) (m : FModel) :
    (runOps ops m).conActive c = ops.foldl (stepCon c) (m.conActive c) := by
  induction ops generalizing m with
  | nil => rfl
  | cons op ops ih =>
      rw [runOps_cons, ih, applyFOp_conActive]
      rfl

@[simp] lemma applyFOp_otherFree {m : FModel} {op : FOp} :
    (applyFOp m op).otherFree = m.otherFree := by
  cases op <;> rfl

@[simp] lemma applyFOp_activeEq {m : FModel} {op : FOp} :
    (applyFOp m op).activeEq = m.activeEq := by
  cases op <;> rfl

@[simp] lemma runOps_otherFree {ops : List FOp} {m : FModel} :
    (runOps ops m).otherFree = m.otherFree := by
  induction ops generalizing m with
  | nil => rfl
  | cons op ops ih => rw [runOps_cons, ih, applyFOp_otherFree]

@[simp] lemma runOps_activeEq {ops : List FOp} {m : FModel} :
    (runOps ops m).activeEq = m.activeEq := by
  induction ops generalizing m with
  | nil => rfl
  | cons op ops ih => rw [runOps_cons, ih, applyFOp_activeEq]

/-- Operation list of `set_model_input` (source lines 662-766), in statement
order.  The only operation on the condenser make-up molar flow is a plain
value assignment (line 719); every other listed design/operating input is
fixed. -/
def set_model_input_ops : List FOp :=
  [.fixv .boiler_inlet_flow_mol 29111,
   .fixv .boiler_outlet_pressure 24235081.4,
   .fixv .reheater_deltaP (-96526.64),
   .fixv (.turbine_ratioP 1) (0.8 ^ 5),
   .fixv (.turbine_efficiency_isentropic 1) 0.94,
   .fixv (.turbine_ratioP 2) (0.8 ^ 2),
   .fixv (.turbine_efficiency_isentropic 2) 0.94,
   .fixv (.turbine_ratioP 3) (0.79 ^ 4),
   .fixv (.turbine_efficiency_isentropic 3) 0.88,
   .fixv (.turbine_ratioP 4) (0.79 ^ 6),
   .fixv (.turbine_efficiency_isentropic 4) 0.88,
   .fixv (.turbine_ratioP 5) (0.64 ^ 2),
   .fixv (.turbine_efficiency_isentropic 5) 0.78,
   .fixv (.turbine_ratioP 6) (0.64 ^ 2),
   .fixv (.turbine_efficiency_isentropic 6) 0.78,
   .fixv (.turbine_ratioP 7) (0.64 ^ 2),
   .fixv (.turbine_efficiency_isentropic 7) 0.78,
   .fixv (.turbine_ratioP 8) (0.64 ^ 2),
   .fixv (.turbine_efficiency_isentropic 8) 0.78,
   .fixv (.turbine_ratioP 9) 0.5,
   .fixv (.turbine_efficiency_isentropic 9) 0.78,
   .fixv .cond_pump_efficiency_pump 0.80,
   .fixv .cond_pump_deltaP 1000000,
   .setValue .makeup_flow_mol 1.08002495835536e-12,
   .fixv .makeup_pressure 103421.4,
   .fixv .makeup_enth_mol 1131.69204,
   .fixv (.fwh_area 1) 400,
   .fixv (.fwh_overall_heat_transfer_coefficient 1) 2000,
   .fixv (.fwh_area 2) 300,
   .fixv (.fwh_overall_heat_transfer_coefficient 2) 2900,
   .fixv (.fwh_area 3) 200,
   .fixv (.fwh_overall_heat_transfer_coefficient 3) 2900,
   .fixv (.fwh_area 4) 200,
   .fixv (.fwh_overall_heat_transfer_coefficient 4) 2900,
   .fixv (.split_fraction 4 2) 0.050331,
   .fixv .bfp_efficiency_pump 0.80,
   .fixv .bfp_outlet_pressure (24235081.4 * 1.15),
   .fixv .bfpt_efficiency_isentropic 0.80,
   .fixv (.fwh_area 6) 600,
   .fixv (.fwh_overall_heat_transfer_coefficient 6) 2900,
   .fixv (.fwh_area 7) 400,
   .fixv (.fwh_overall_heat_transfer_coefficient 7) 2900,
   .fixv (.fwh_area 8) 400,
   .fixv (.fwh_overall_heat_transfer_coefficient 8) 2900]

/-- Embedding of `set_model_input` (source lines 662-766). -/
def set_model_input (m : FModel) : FModel := runOps set_model_input_ops m

end Powerplant


namespace Powerplant

/-- Operations of the staged flowsheet `initialize` (source lines
769-1017), in statement order, split into its phases.  This first list is
the boiler warm-start (source lines 781-785). -/
def initialise_ops_boiler : List FOp :=
  [.fixv .boiler_inlet_pressure 24657896,
   .fixv .boiler_inlet_enth_mol 20004,
   .initUnit .boiler,
   .unfixv .boiler_inlet_pressure,
   .unfixv .boiler_inlet_enth_mol]

/-- Decoupling prelude (source lines 795-811): fix the eight split
fractions, deactivate the bfpt outlet-pressure constraint and the seven
saturated-liquid constraints. -/
def initialise_ops_decouple : List FOp :=
  [.fixv (.split_fraction 1 2) 0.12812,
   .fixv (.split_fraction 2 2) 0.061824,
   .fixv (.split_fraction 3 2) 0.03815,
   .fixv (.split_fraction 4 1) 0.9019,
   .fixv (.split_fraction 5 2) 0.0381443,
   .fixv (.split_fraction 6 2) 0.017535,
   .fixv (.split_fraction 7 2) 0.0154,
   .fixv (.split_fraction 8 2) 0.00121,
   .deact .constraint_out_pressure,
   .deact (.vaporfrac_constraint 1),
   .deact (.vaporfrac_constraint 2),
   .deact (.vaporfrac_constraint 3),
   .deact (.vaporfrac_constraint 4),
   .deact (.vaporfrac_constraint 6),
   .deact (.vaporfrac_constraint 7),
   .deact (.vaporfrac_constraint 8)]

/-- Turbine-train walk (source lines 813-870). -/
def initialise_ops_turbines : List FOp :=
  [.initUnit (.turbine 1), .initUnit (.t_splitter 1),
   .initUnit (.turbine 2), .initUnit (.t_splitter 2),
   .initUnit .reheater,
   .initUnit (.turbine 3), .initUnit (.t_splitter 3),
   .initUnit (.turbine 4), .initUnit (.t_splitter 4),
   .initUnit (.turbine 5), .initUnit (.t_splitter 5),
   .initUnit (.turbine 6), .initUnit (.t_splitter 6),
   .initUnit (.turbine 7), .initUnit (.t_splitter 7),
   .initUnit (.turbine 8), .initUnit (.t_splitter 8),
   .initUnit (.turbine 9),
   .initUnit .bfpt]

/-- Condenser section (source lines 875-887). -/
def initialise_ops_condenser : List FOp :=
  [.fixv (.drain_flow_mol .condenser_mix) 1460,
   .fixv (.drain_pressure .condenser_mix) 7308,
   .fixv (.drain_enth_mol .condenser_mix) 2973,
   .initUnit .condenser_mix,
   .unfixv (.drain_flow_mol .condenser_mix),
   .unfixv (.drain_pressure .condenser_mix),
   .unfixv (.drain_enth_mol .condenser_mix),
   .initUnit .condenser,
   .initUnit .cond_pump]

/-- Low-pressure feedwater heaters 1 to 3 (source lines 893-930). -/
def initialise_ops_lowfwh : List FOp :=
  [.fixv (.drain_flow_mol .fwh1_mix) 1434,
   .fixv (.drain_pressure .fwh1_mix) 14617,
   .fixv (.drain_enth_mol .fwh1_mix) 3990,
   .initUnit (.fwh_mix 1),
   .unfixv (.drain_flow_mol .fwh1_mix),
   .unfixv (.drain_pressure .fwh1_mix),
   .unfixv (.drain_enth_mol .fwh1_mix),
   .initUnit (.fwh 1),
   .fixv (.drain_flow_mol .fwh2_mix) 1136,
   .fixv (.drain_pressure .fwh2_mix) 35685,
   .fixv (.drain_enth_mol .fwh2_mix) 5462,
   .initUnit (.fwh_mix 2),
   .unfixv (.drain_flow_mol .fwh2_mix),
   .unfixv (.drain_pressure .fwh2_mix),
   .unfixv (.drain_enth_mol .fwh2_mix),
   .unfixv (.steam_flow_mol .fwh2_mix),
   .unfixv (.steam_pressure .fwh2_mix),
   .unfixv (.steam_enth_mol .fwh2_mix),
   .initUnit (.fwh 2),
   .fixv (.drain_flow_mol .fwh3_mix) 788,
   .fixv (.drain_pressure .fwh3_mix) 87123,
   .fixv (.drain_enth_mol .fwh3_mix) 7160,
   .initUnit (.fwh_mix 3),
   .unfixv (.drain_flow_mol .fwh3_mix),
   .unfixv (.drain_pressure .fwh3_mix),
   .unfixv (.drain_enth_mol .fwh3_mix),
   .initUnit (.fwh 3)]

/-- Feedwater heater 4, deaerator and boiler feed pump (source lines
932-952). -/
def initialise_ops_da_bfp : List FOp :=
  [.initUnit (.fwh 4),
   .fixv (.drain_flow_mol .fwh5_da) 6207,
   .fixv (.drain_pressure .fwh5_da) 519291,
   .fixv (.drain_enth_mol .fwh5_da) 11526,
   .initUnit .fwh5_da,
   .unfixv (.drain_flow_mol .fwh5_da),
   .unfixv (.drain_pressure .fwh5_da),
   .unfixv (.drain_enth_mol .fwh5_da),
   .initUnit .bfp]

/-- High-pressure feedwater heaters 6 to 8 (source lines 956-985). -/
def initialise_ops_highfwh : List FOp :=
  [.fixv (.drain_flow_mol .fwh6_mix) 5299,
   .fixv (.drain_pressure .fwh6_mix) 2177587,
   .fixv (.drain_enth_mol .fwh6_mix) 16559,
   .initUnit (.fwh_mix 6),
   .unfixv (.drain_flow_mol .fwh6_mix),
   .unfixv (.drain_pressure .fwh6_mix),
   .unfixv (.drain_enth_mol .fwh6_mix),
   .initUnit (.fwh 6),
   .fixv (.drain_flow_mol .fwh7_mix) 3730,
   .fixv (.drain_pressure .fwh7_mix) 5590711,
   .fixv (.drain_enth_mol .fwh7_mix) 21232,
   .initUnit (.fwh_mix 7),
   .unfixv (.drain_flow_mol .fwh7_mix),
   .unfixv (.drain_pressure .fwh7_mix),
   .unfixv (.drain_enth_mol .fwh7_mix),
   .initUnit (.fwh 7),
   .initUnit (.fwh 8),
   .unfixv .fwh8_inlet1_flow_mol,
   .unfixv .fwh8_inlet1_pressure,
   .unfixv .fwh8_inlet1_enth_mol]

/-- Reactivation phase and final global square solve (source lines
995-1014): unfix the eight split fractions, reactivate the deactivated
constraints, solve the full square problem. -/
def initialise_ops_reactivate : List FOp :=
  [.unfixv (.split_fraction 1 2),
   .unfixv (.split_fraction 2 2),
   .unfixv (.split_fraction 3 2),
   .unfixv (.split_fraction 4 1),
   .unfixv (.split_fraction 5 2),
   .unfixv (.split_fraction 6 2),
   .unfixv (.split_fraction 7 2),
   .unfixv (.split_fraction 8 2),
   .act .constraint_out_pressure,
   .act (.vaporfrac_constraint 1),
   .act (.vaporfrac_constraint 2),
   .act (.vaporfrac_constraint 3),
   .act (.vaporfrac_constraint 4),
   .act (.vaporfrac_constraint 6),
   .act (.vaporfrac_constraint 7),
   .act (.vaporfrac_constraint 8),
   .solveAll]

/-- The full operation list, the concatenation of the phases above in
source order. -/
def initialise_ops : List FOp :=
  initialise_ops_boiler ++ initialise_ops_decouple ++ initialise_ops_turbines
    ++ initialise_ops_condenser ++ initialise_ops_lowfwh
    ++ initialise_ops_da_bfp ++ initialise_ops_highfwh
    ++ initialise_ops_reactivate

/-- Embedding of the staged flowsheet `initialize`: the final bookkeeping
state and the trace, which for this straight-line routine is the operation
list itself. -/
def finitialise (m : FModel) : FModel × List FOp :=
  (runOps initialise_ops m, initialise_ops)

/-- Constraints deactivated by an operation list, in order. -/
def deactivatedCons (ops : List FOp) : List FCon :=
  ops.filterMap fun op =>
    match op with
    | .deact c => some c
    | _ => none

/-- Constraints activated by an operation list, in order. -/
def activatedCons (ops : List FOp) : List FCon :=
  ops.filterMap fun op =>
    match op with
    | .act c => some c
    | _ => none

/-- Split fractions fixed by an operation list, in order. -/
def fixedSplits (ops : List FOp) : List (ℕ × ℕ) :=
  ops.filterMap fun op =>
    match op with
    | .fixv (.split_fraction t o) _ => some (t, o)
    | _ => none

/-- Split fractions unfixed by an operation list, in order. -/
def unfixedSplits (ops : List FOp) : List (ℕ × ℕ) :=
  ops.filterMap fun op =>
    match op with
    | .unfixv (.split_fraction t o) => some (t, o)
    | _ => none

end Powerplant


namespace Powerplant

/-- C2 counterexample: the staged flowsheet initializer never deactivates
(or reactivates) the cross-unit power-balance constraint
`constraint_bfp_power`; the cross-unit constraint it deactivates in the
decoupled phase is the bfpt outlet-pressure constraint
`constraint_out_pressure`. -/
theorem C2_counterexample_power_balance_not_deactivated :
    FOp.deact FCon.constraint_bfp_power ∉ initialise_ops
    ∧ FOp.act FCon.constraint_bfp_power ∉ initialise_ops
    ∧ FOp.deact FCon.constraint_out_pressure ∈ initialise_ops := by
  decide

set_option maxRecDepth 10000 in
/-- C2 (amended): the decoupled first phase of the flowsheet initializer
deactivates exactly the seven feedwater-heater saturated-liquid constraints
and the bfpt outlet-pressure constraint (all within the prelude, before any
unit is initialised), the reactivation phase before the final global square
solve reactivates exactly those constraints and unfixes exactly the eight
split fractions the initializer fixed, the global solve is the last
operation, and the power-balance constraint `constraint_bfp_power` is left
untouched. -/
theorem C2_decoupling_reactivation_exact (m : FModel) :
    deactivatedCons initialise_ops
      = [FCon.constraint_out_pressure, .vaporfrac_constraint 1,
         .vaporfrac_constraint 2, .vaporfrac_constraint 3,
         .vaporfrac_constraint 4, .vaporfrac_constraint 6,
         .vaporfrac_constraint 7, .vaporfrac_constraint 8]
    ∧ activatedCons initialise_ops = deactivatedCons initialise_ops
    ∧ fixedSplits initialise_ops
      = [(1, 2), (2, 2), (3, 2), (4, 1), (5, 2), (6, 2), (7, 2), (8, 2)]
    ∧ unfixedSplits initialise_ops = fixedSplits initialise_ops
    ∧ deactivatedCons (initialise_ops.take 21) = deactivatedCons initialise_ops
    ∧ activatedCons (initialise_ops.take 21) = []
    ∧ activatedCons (initialise_ops.drop (initialise_ops.length - 9))
        = activatedCons initialise_ops
    ∧ initialise_ops.getLast? = some .solveAll
    ∧ initialise_ops.count .solveAll = 1
    ∧ (finitialise m).1.conActive FCon.constraint_bfp_power
        = m.conActive FCon.constraint_bfp_power := by
  refine ⟨by decide, by decide, by decide, by decide, by decide, by decide,
    by decide, by decide, by decide, ?_⟩
  show (runOps initialise_ops m).conActive _ = _
  rw [runOps_conActive]
  rfl

/-- C10: `set_model_input` leaves the fixed status of the condenser make-up
molar flow unchanged and only assigns it an initial value, while fixing the
make-up pressure and molar enthalpy; in particular if the make-up flow was
free before the call it stays free afterwards (it is determined by the
condenser-mixer mass balance). -/
theorem C10_makeup_flow_mol_not_fixed (m : FModel) :
    ((set_model_input m).fvars FVar.makeup_flow_mol).fixed
        = (m.fvars FVar.makeup_flow_mol).fixed
    ∧ ((set_model_input m).fvars FVar.makeup_flow_mol).val
        = 1.08002495835536e-12
    ∧ ((set_model_input m).fvars FVar.makeup_pressure).fixed = true
    ∧ ((set_model_input m).fvars FVar.makeup_enth_mol).fixed = true := by
  have h1 : (set_model_input m).fvars FVar.makeup_flow_mol
      = ⟨1.08002495835536e-12, (m.fvars FVar.makeup_flow_mol).fixed⟩ := by
    rw [set_model_input, runOps_fvars]
    simp [set_model_input_ops, stepVar]
  have h2 : (set_model_input m).fvars FVar.makeup_pressure
      = ⟨103421.4, true⟩ := by
    rw [set_model_input, runOps_fvars]
    simp [set_model_input_ops, stepVar]
  have h3 : (set_model_input m).fvars FVar.makeup_enth_mol
      = ⟨1131.69204, true⟩ := by
    rw [set_model_input, runOps_fvars]
    simp [set_model_input_ops, stepVar]
  exact ⟨by rw [h1], by rw [h1], by rw [h2], by rw [h3]⟩

/-- Turbine numbers of the flowsheet. -/
def turbineIdx : List ℕ := [1, 2, 3, 4, 5, 6, 7, 8, 9]

/-- Feedwater-heater numbers (there is no `fwh5`; the deaerator takes its
place). -/
def fwhIdx : List ℕ := [1, 2, 3, 4, 6, 7, 8]

/-- The mixers with warm-started inlet ports. -/
def mixerList : List MixerName :=
  [.condenser_mix, .fwh1_mix, .fwh2_mix, .fwh3_mix, .fwh5_da, .fwh6_mix,
   .fwh7_mix]

/-- The split-fraction variables of the eight turbine-outlet splitters
(`t4_splitter` has three outlets and carries both a fixed and a free split
fraction). -/
def splitIdx : List (ℕ × ℕ) :=
  [(1, 2), (2, 2), (3, 2), (4, 1), (4, 2), (5, 2), (6, 2), (7, 2), (8, 2)]

/-- Enumeration of all tracked flowsheet variables. -/
def allFVars : List FVar :=
  [.boiler_inlet_flow_mol, .boiler_inlet_pressure, .boiler_inlet_enth_mol,
   .boiler_outlet_pressure, .reheater_deltaP]
  ++ turbineIdx.flatMap
      (fun i => [.turbine_ratioP i, .turbine_efficiency_isentropic i])
  ++ [.cond_pump_efficiency_pump, .cond_pump_deltaP,
      .makeup_flow_mol, .makeup_pressure, .makeup_enth_mol]
  ++ fwhIdx.flatMap
      (fun i => [.fwh_area i, .fwh_overall_heat_transfer_coefficient i])
  ++ splitIdx.map (fun p => .split_fraction p.1 p.2)
  ++ [.bfp_efficiency_pump, .bfp_outlet_pressure, .bfpt_efficiency_isentropic]
  ++ mixerList.flatMap
      (fun u => [.drain_flow_mol u, .drain_pressure u, .drain_enth_mol u])
  ++ mixerList.flatMap
      (fun u => [.steam_flow_mol u, .steam_pressure u, .steam_enth_mol u])
  ++ [.fwh8_inlet1_flow_mol, .fwh8_inlet1_pressure, .fwh8_inlet1_enth_mol]

/-- Enumeration of the tracked flowsheet constraints (the two cross-unit
constraints and the seven saturated-liquid constraints). -/
def allFCons : List FCon :=
  [.constraint_out_pressure, .constraint_bfp_power]
  ++ fwhIdx.map (fun i => .vaporfrac_constraint i)

/-- Number of unfixed tracked variables. -/
def numUnfixed (m : FModel) : ℕ :=
  (allFVars.filter (fun v => !(m.fvars v).fixed)).length

/-- Number of active tracked equality constraints. -/
def numTrackedEq (m : FModel) : ℕ :=
  (allFCons.filter (fun c => m.conActive c)).length

/-- Modelled from the spec: `degrees_of_freedom` (the external
`idaes.core.util.model_statistics.degrees_of_freedom`, not in src) counts
free variables minus active equality constraints: here the tracked free
variables plus the untracked free-variable count, minus the tracked active
constraints plus the untracked active-equality count. -/
def degrees_of_freedom (m : FModel) : ℤ :=
  ((numUnfixed m + m.otherFree : ℕ) : ℤ) - ((numTrackedEq m + m.activeEq : ℕ) : ℤ)

/-- Modelled from the spec: `create_model` (source lines 65-401) builds the
fully wired flowsheet, under-specified with positive degrees of freedom;
paragraph 4.2 of the spec states that `set_model_input` then fixes every
remaining design/operating input so that the degrees of freedom become
exactly zero.  Accordingly the built model has every tracked variable free
and every tracked constraint active, `n` untracked free variables from the
unit models, and `n + 47` untracked active equality constraints: the
untracked equations determine the `n` untracked internal variables and the
47 tracked stream-state variables (boiler inlet state, mixer drain and steam
states, fwh8 inlet, and the make-up flow and eight free split fractions are
instead pinned by the mixer balance and the nine tracked constraints). -/
def create_model_spec (n : ℕ) : FModel where
  fvars := fun _ => ⟨0, false⟩
  conActive := fun _ => true
  otherFree := n
  activeEq := n + 47

/-- C3 (spec-modelled): after `create_model` the model is under-specified
(positive degrees of freedom), and after `set_model_input` the degrees of
freedom are exactly zero, so the assertion in `build_plant_model` between
input specification and initialisation never fails: the source's fix list
covers every tracked design input exactly once, leaving free only the 56
variables matched by the remaining equality constraints. -/
theorem C3_dof_zero_after_set_model_input (n : ℕ) :
    0 < degrees_of_freedom (create_model_spec n)
    ∧ degrees_of_freedom (set_model_input (create_model_spec n)) = 0 := by
  have h1 : numUnfixed (create_model_spec n) = 99 := by rfl
  have h2 : numTrackedEq (create_model_spec n) = 9 := by rfl
  have h3 : numUnfixed (set_model_input (create_model_spec n)) = 56 := by rfl
  have h4 : numTrackedEq (set_model_input (create_model_spec n)) = 9 := by rfl
  have h5 : (set_model_input (create_model_spec n)).otherFree = n := by
    rw [set_model_input, runOps_otherFree]
    rfl
  have h6 : (set_model_input (create_model_spec n)).activeEq = n + 47 := by
    rw [set_model_input, runOps_activeEq]
    rfl
  constructor
  · rw [degrees_of_freedom, h1, h2]
    show (0 : ℤ) < ((99 + n : ℕ) : ℤ) - ((9 + (n + 47) : ℕ) : ℤ)
    push_cast
    omega
  · rw [degrees_of_freedom, h3, h4, h5, h6]
    push_cast
    omega

end Powerplant


namespace Pynumero

/-- Objective expression of the pynumero smoke test (source line 28):
`x1**4 - 3*x1*x2**3 + x3**2 - 8.0`. -/
def m_o {R : Type} [CommRing R] (x1 x2 x3 : R) : R :=
  x1 ^ 4 - 3 * x1 * x2 ^ 3 + x3 ^ 2 - 8

/-- Body of the equality constraint `m.c` of the smoke test (source line
26): `x[3]**2 + x[1] == 25`. -/
def m_c {R : Type} [CommRing R] (x1 x2 x3 : R) : R := x3 ^ 2 + x1

/-- Body of the inequality constraint `m.d` of the smoke test (source line
27): `x[2]**2 + x[1] <= 18.0`. -/
def m_d {R : Type} [CommRing R] (x1 x2 x3 : R) : R := x2 ^ 2 + x1

/-- First constraint as the spec transcribes it: `x1² + x3² = 25`.  Written
from the spec's words, to be compared with the source's `m_c`. -/
def spec_c {R : Type} [CommRing R] (x1 x2 x3 : R) : R := x1 ^ 2 + x3 ^ 2

/-- Gradient of `m_c` with respect to `(x1, x2, x3)`; correctness is proved
in the three lemmas below. -/
def grad_c {R : Type} [CommRing R] (x1 x2 x3 : R) : R × R × R := (1, 0, 2 * x3)

/-- Gradient of `m_d` with respect to `(x1, x2, x3)`. -/
def grad_d {R : Type} [CommRing R] (x1 x2 x3 : R) : R × R × R := (1, 2 * x2, 0)

/-- Gradient of the spec's transcription `spec_c`. -/
def grad_spec_c {R : Type} [CommRing R] (x1 x2 x3 : R) : R × R × R :=
  (2 * x1, 0, 2 * x3)

theorem m_c_hasDerivAt_x1 (x1 x2 x3 : ℝ) :
    HasDerivAt (fun t => m_c t x2 x3) (grad_c x1 x2 x3).1 x1 := by
  simpa [m_c, grad_c] using (hasDerivAt_id x1).const_add (x3 ^ 2)

theorem m_c_hasDerivAt_x2 (x1 x2 x3 : ℝ) :
    HasDerivAt (fun t => m_c x1 t x3) (grad_c x1 x2 x3).2.1 x2 := by
  simpa [m_c, grad_c] using hasDerivAt_const x2 (x3 ^ 2 + x1)

theorem m_c_hasDerivAt_x3 (x1 x2 x3 : ℝ) :
    HasDerivAt (fun t => m_c x1 x2 t) (grad_c x1 x2 x3).2.2 x3 := by
  have h := (hasDerivAt_pow 2 x3).add_const x1
  simpa [m_c, grad_c, mul_comm] using h

theorem m_d_hasDerivAt_x1 (x1 x2 x3 : ℝ) :
    HasDerivAt (fun t => m_d t x2 x3) (grad_d x1 x2 x3).1 x1 := by
  simpa [m_d, grad_d] using (hasDerivAt_id x1).const_add (x2 ^ 2)

theorem m_d_hasDerivAt_x2 (x1 x2 x3 : ℝ) :
    HasDerivAt (fun t => m_d x1 t x3) (grad_d x1 x2 x3).2.1 x2 := by
  have h := (hasDerivAt_pow 2 x2).add_const x1
  simpa [m_d, grad_d, mul_comm] using h

theorem m_d_hasDerivAt_x3 (x1 x2 x3 : ℝ) :
    HasDerivAt (fun t => m_d x1 x2 t) (grad_d x1 x2 x3).2.2 x3 := by
  simpa [m_d, grad_d] using hasDerivAt_const x3 (x2 ^ 2 + x1)

theorem spec_c_hasDerivAt_x1 (x1 x2 x3 : ℝ) :
    HasDerivAt (fun t => spec_c t x2 x3) (grad_spec_c x1 x2 x3).1 x1 := by
  have h := (hasDerivAt_pow 2 x1).add_const (x3 ^ 2)
  simpa [spec_c, grad_spec_c, mul_comm] using h

theorem spec_c_hasDerivAt_x2 (x1 x2 x3 : ℝ) :
    HasDerivAt (fun t => spec_c x1 t x3) (grad_spec_c x1 x2 x3).2.1 x2 := by
  simpa [spec_c, grad_spec_c] using hasDerivAt_const x2 (x1 ^ 2 + x3 ^ 2)

theorem spec_c_hasDerivAt_x3 (x1 x2 x3 : ℝ) :
    HasDerivAt (fun t => spec_c x1 x2 t) (grad_spec_c x1 x2 x3).2.2 x3 := by
  have h := (hasDerivAt_pow 2 x3).const_add (x1 ^ 2)
  simpa [spec_c, grad_spec_c, mul_comm] using h

/-- C8 counterexample: the source's first constraint is `x3² + x1`, not the
claimed `x1² + x3²` (they differ already at `x = (2, 0, 0)`), and under the
claimed constraint no Jacobian row can match the test's asserted literals:
the claimed first constraint's gradient at `(4, 4, 4)` is `(8, 0, 8)`, whose
entries do not even form the multiset of either asserted row `(0, 8, 1)` or
`(8, 0, 1)`, so no ordering of variables or rows reconciles the claim. -/
theorem C8_counterexample_constraint_and_jacobian :
    m_c (2 : ℚ) 0 0 ≠ spec_c (2 : ℚ) 0 0
    ∧ grad_spec_c (4 : ℚ) 4 4 = (8, 0, 8)
    ∧ ({8, 0, 8} : Multiset ℚ) ≠ ({0, 8, 1} : Multiset ℚ)
    ∧ ({8, 0, 8} : Multiset ℚ) ≠ ({8, 0, 1} : Multiset ℚ) := by
  refine ⟨by norm_num [m_c, spec_c], by norm_num [grad_spec_c], ?_, ?_⟩ <;>
    · intro h
      have := congrArg (Multiset.count 1) h
      simp at this

/-- C8 (amended): for the smoke-test NLP as the source writes it
(equality constraint `x3² + x1 = 25`, inequality `x2² + x1 ≤ 18`, objective
`x1⁴ − 3·x1·x2³ + x3² − 8`, all variables at 4), the objective value is
exactly −504 (exact also in binary floating point), and the Jacobian
literals the test asserts are exactly the gradients of the inequality and
the equality constraint at `(4, 4, 4)` with the columns in the order
`(x3, x2, x1)`: row one `(0, 8, 1)` is the gradient of `m_d`, row two
`(8, 0, 1)` the gradient of `m_c`. -/
theorem C8_smoke_test_objective_and_jacobian :
    m_o (4 : ℚ) 4 4 = -504
    ∧ grad_d (4 : ℚ) 4 4 = (1, 8, 0)
    ∧ grad_c (4 : ℚ) 4 4 = (1, 0, 8)
    ∧ ((grad_d (4 : ℚ) 4 4).2.2, (grad_d (4 : ℚ) 4 4).2.1,
        (grad_d (4 : ℚ) 4 4).1) = ((0 : ℚ), 8, 1)
    ∧ ((grad_c (4 : ℚ) 4 4).2.2, (grad_c (4 : ℚ) 4 4).2.1,
        (grad_c (4 : ℚ) 4 4).1) = ((8 : ℚ), 0, 1) := by
  refine ⟨?_, by norm_num [grad_d], by norm_num [grad_c],
    by norm_num [grad_d], by norm_num [grad_c]⟩
  show (4 : ℚ) ^ 4 - 3 * 4 * 4 ^ 3 + 4 ^ 2 - 8 = -504
  norm_num

end Pynumero

end Spec2Proof
